import Mathlib

set_option linter.unusedVariables false

/-!
Verification development for the HSDS chunk-storage tier
(`src/hsds/util/dsetUtil.py` and `src/hsds/chunk_dn.py`).

The Python code is shallowly embedded: each Python function becomes an
executable Lean definition over `Nat`/`Int`/`List`/`String`; raised Python
exceptions become `Except PyErr`; the aiohttp handlers become pure step
models that record their externally visible actions (fetch, save, kernel
invocations) as an event list.
-/

/-- Python exceptions / HTTP error responses raised by the embedded code.
Each constructor is named for the site that raises it; in the source all
of them are distinct `raise` statements (ValueError, KeyError,
HTTPBadRequest with distinct reason strings, HTTPServiceUnavailable,
HTTPNotFound, HTTPInternalServerError, or an uncaught Python error). -/
inductive PyErr where
  /-- `ValueError` raised by the selection parsing / pagination code. -/
  | valueError : PyErr
  /-- `KeyError` raised by `_getSelectionStringFromRequestBody`. -/
  | keyError : PyErr
  /-- `HTTPBadRequest` raised by `getSelectionShape` on an indexing-array
  shape mismatch. -/
  | broadcastMismatch : PyErr
  /-- Failure of the (spec-modelled) `getBroadcastShape`. -/
  | broadcastError : PyErr
  /-- An uncaught Python runtime error (IndexError / ZeroDivisionError /
  NameError); aiohttp turns it into a 500 response. -/
  | pyError : PyErr
  deriving DecidableEq, Repr

/-- Decidable equality on `Except`, used to evaluate the embedded code on
concrete inputs inside proofs. -/
instance {ε α : Type} [DecidableEq ε] [DecidableEq α] : DecidableEq (Except ε α) :=
  fun a b =>
    match a, b with
    | Except.ok x, Except.ok y =>
      if h : x = y then isTrue (by rw [h]) else isFalse (by simp [h])
    | Except.error x, Except.error y =>
      if h : x = y then isTrue (by rw [h]) else isFalse (by simp [h])
    | Except.ok _, Except.error _ => isFalse (by simp)
    | Except.error _, Except.ok _ => isFalse (by simp)

/-- A Python `slice(start, stop, step)` as produced by `getSelectionList`
(all three fields are validated non-negative integers there). -/
structure Slice where
  start : Nat
  stop : Nat
  step : Nat
  deriving DecidableEq, Repr

/-- One per-dimension entry of a selection: a slice or a coordinate list. -/
inductive SelEntry where
  | slice (s : Slice) : SelEntry
  | coords (l : List Nat) : SelEntry
  deriving DecidableEq, Repr

/-- Default entry used where the Python code would raise `IndexError` on an
out-of-range list index; the modelled call sites are guarded by
rank/length side conditions in every theorem below. -/
def defaultEntry : SelEntry := SelEntry.slice ⟨0, 0, 1⟩

/-! ### Embedding of Python `int(...)` on the strings this code produces -/

/-- Value of a non-empty all-digit character list (helper for `pyInt`). -/
def digitsVal : List Char → Option Nat
  | [] => none
  | cs => digitsValGo 0 cs
where
  digitsValGo : Nat → List Char → Option Nat
    | acc, [] => some acc
    | acc, c :: rest =>
      if c.isDigit then digitsValGo (acc * 10 + (c.toNat - 48)) rest else none

/-- Embedding of Python `int(s)` on the selection-expression fields: an
optional sign followed by decimal digits (whitespace was already removed
by `_getSelectElements`; underscore digit separators are not modelled). -/
def pyInt : List Char → Option Int
  | [] => none
  | '-' :: rest => (digitsVal rest).map (fun n => -(n : Int))
  | '+' :: rest => (digitsVal rest).map (fun n => (n : Int))
  | cs => (digitsVal cs).map (fun n => (n : Int))

/-- Python `str.split(sep)` semantics on character lists: empty pieces are
preserved and splitting the empty string yields one empty piece. -/
def splitOnChar (sep : Char) : List Char → List (List Char)
  | [] => [[]]
  | c :: rest =>
    match splitOnChar sep rest with
    | [] => [[c]]
    | h :: t => if c = sep then [] :: h :: t else (c :: h) :: t

/-! ### `_getSelectElements` (dsetUtil.py lines 511-557) -/

/-- Character loop of `_getSelectElements`: split the bracket-stripped
selection string into per-dimension substrings, tracking whether the scan
is inside a `[...]` coordinate list.  State: remaining input, current
dimension's characters (reversed), inside-coordinate-list flag. -/
def getSelElementsGo : List Char → List Char → Bool → Except PyErr (List (List Char))
  | [], dimq, _ =>
    if dimq = [] then Except.error PyErr.valueError else Except.ok [dimq.reverse]
  | c :: rest, dimq, coord =>
    if c.isWhitespace then
      getSelElementsGo rest dimq coord
    else if c = ',' then
      if coord then
        getSelElementsGo rest (c :: dimq) coord
      else if dimq = [] then
        Except.error PyErr.valueError
      else
        match getSelElementsGo rest [] false with
        | Except.error e => Except.error e
        | Except.ok r => Except.ok (dimq.reverse :: r)
    else if c = '[' then
      if coord then Except.error PyErr.valueError
      else getSelElementsGo rest (c :: dimq) true
    else if c = ']' then
      if coord then getSelElementsGo rest (c :: dimq) false
      else Except.error PyErr.valueError
    else if c = ':' then
      if coord then Except.error PyErr.valueError
      else getSelElementsGo rest (c :: dimq) coord
    else
      getSelElementsGo rest (c :: dimq) coord

/-- `_getSelectElements(select)` for a string argument: strip the first and
last character (Python `select[1:-1]`) and run the splitting loop. -/
def getSelElements (s : String) : Except PyErr (List (List Char)) :=
  getSelElementsGo ((s.data.drop 1).dropLast) [] false

/-! ### `getSelectionList` (dsetUtil.py lines 560-660) -/

/-- Parse the `start:stop[:step]` form of one dimension entry
(`getSelectionList` lines 606-646).  `extent` is the dimension's size. -/
def parseRangeElement (f0 f1 : List Char) (f2? : Option (List Char)) (extent : Nat) :
    Except PyErr SelEntry := do
  let start ←
    if f0 = [] then pure 0
    else
      match pyInt f0 with
      | none => throw PyErr.valueError
      | some v =>
        if v < 0 ∨ v ≥ (extent : Int) then throw PyErr.valueError else pure v.toNat
  let stop ←
    if f1 = [] then pure extent
    else
      match pyInt f1 with
      | none => throw PyErr.valueError
      | some v =>
        if v < 0 ∨ v > (extent : Int) ∨ v ≤ (start : Int) then throw PyErr.valueError
        else pure v.toNat
  let step ←
    match f2? with
    | none => pure 1
    | some f2 =>
      if f2 = [] then pure 1
      else
        match pyInt f2 with
        | none => throw PyErr.valueError
        | some v => if v ≤ 0 then throw PyErr.valueError else pure v.toNat
  pure (SelEntry.slice ⟨start, stop, step⟩)

/-- Parse one per-dimension element of a selection expression
(the body of the dimension loop of `getSelectionList`). -/
def parseDimElement (element : List Char) (extent : Nat) : Except PyErr SelEntry :=
  if element.head? = some '[' then
    -- list of coordinates
    let fields := splitOnChar ',' ((element.drop 1).dropLast)
    let coordsRes : Except PyErr (List Nat) := fields.mapM (fun f =>
      match pyInt f with
      | none => throw PyErr.valueError
      | some coord =>
        if coord < 0 ∨ coord ≥ (extent : Int) then throw PyErr.valueError
        else pure coord.toNat)
    coordsRes.map SelEntry.coords
  else if element = [':'] then
    Except.ok (SelEntry.slice ⟨0, extent, 1⟩)
  else if element.contains ':' then
    match splitOnChar ':' element with
    | [f0, f1] => parseRangeElement f0 f1 none extent
    | [f0, f1, f2] => parseRangeElement f0 f1 (some f2) extent
    | _ => Except.error PyErr.valueError
  else
    -- expect single coordinate value
    match pyInt element with
    | none => Except.error PyErr.valueError
    | some index =>
      if index < 0 ∨ index ≥ (extent : Int) then Except.error PyErr.valueError
      else Except.ok (SelEntry.slice ⟨index.toNat, index.toNat + 1, 1⟩)

/-- The full-extent selection built when no selection string is given. -/
def fullExtentSel (dims : List Nat) : List SelEntry :=
  dims.map (fun extent => SelEntry.slice ⟨0, extent, 1⟩)

/-- `getSelectionList(select, dims)` for `select` equal to `None` or a
string (the dict form is layered on top below). -/
def getSelectionListCore (sel? : Option String) (dims : List Nat) :
    Except PyErr (List SelEntry) :=
  match sel? with
  | none => Except.ok (fullExtentSel dims)
  | some s =>
    if s.length = 0 then Except.ok (fullExtentSel dims)
    else do
      let elements ← getSelElements s
      if dims.length ≠ elements.length then throw PyErr.valueError
      (dims.zip elements).mapM (fun p => parseDimElement p.2 p.1)

/-! ### `_getSelectionStringFromRequestBody` (dsetUtil.py lines 473-508) -/

/-- A structured selection request body.  `none` fields model absent keys;
scalar values are modelled as already wrapped into one-element lists
(the source wraps non-list values itself). -/
structure ReqBody where
  start : Option (List Int)
  stop : Option (List Int)
  step : Option (List Int)
  deriving DecidableEq, Repr

/-- `_getSelectionStringFromRequestBody(body)`: join the start, stop and
optional step values into an equivalent selection string. -/
def getSelectionStringFromRequestBody (b : ReqBody) : Except PyErr String := do
  let startVal ←
    match b.start with
    | none => throw PyErr.keyError
    | some v => pure v
  let rank := startVal.length
  let stopVal ←
    match b.stop with
    | none => throw PyErr.keyError
    | some v => pure v
  if stopVal.length ≠ rank then throw PyErr.valueError
  let stepVal? ←
    match b.step with
    | none => pure none
    | some v =>
      if v.length ≠ rank then throw PyErr.valueError else pure (some v)
  let dimSels := (List.range rank).map (fun i =>
    toString (startVal.getD i 0) ++ ":" ++ toString (stopVal.getD i 0) ++
      match stepVal? with
      | some sv => ":" ++ toString (sv.getD i 0)
      | none => "")
  pure ("[" ++ String.intercalate "," dimSels ++ "]")

/-- The three input forms `getSelectionList` accepts for `select`. -/
inductive SelectInput where
  | noneInp : SelectInput
  | str (s : String) : SelectInput
  | body (b : ReqBody) : SelectInput
  deriving Repr

/-- `getSelectionList(select, dims)` (dsetUtil.py lines 560-660): a dict
argument is first converted to a selection string, then the common
string path runs. -/
def getSelectionList (select : SelectInput) (dims : List Nat) :
    Except PyErr (List SelEntry) :=
  match select with
  | SelectInput.noneInp => getSelectionListCore none dims
  | SelectInput.str s => getSelectionListCore (some s) dims
  | SelectInput.body b =>
    match getSelectionStringFromRequestBody b with
    | Except.error e => Except.error e
    | Except.ok s => getSelectionListCore (some s) dims

/-! ### `getSelectionShape` (dsetUtil.py lines 333-373) -/

/-- Extent contributed by one slice entry in `getSelectionShape`.  The
stride test on the Python side is `(s.stop - s.start) % step` on signed
integers, so the subtraction is taken in `Int` here. -/
def sliceExtent (s : Slice) : Nat :=
  let step := if 0 < s.step ∧ 1 < s.step then s.step else 1
  let extent := if s.start < s.stop then s.stop - s.start else 0
  let extent := if 1 < step ∧ 0 < extent then extent / step else extent
  if ((s.stop : Int) - (s.start : Int)) % (step : Int) ≠ 0 then extent + 1 else extent

/-- Dimension loop of `getSelectionShape`: the second component of the
state is Python's `coordinate_extent` variable (length of the first
coordinate list seen so far, if any). -/
def getSelectionShapeGo : List SelEntry → Option Nat → Except PyErr (List Nat)
  | [], _ => Except.ok []
  | SelEntry.slice s :: rest, coordExt =>
    match getSelectionShapeGo rest coordExt with
    | Except.error e => Except.error e
    | Except.ok shape => Except.ok (sliceExtent s :: shape)
  | SelEntry.coords l :: rest, none =>
    match getSelectionShapeGo rest (some l.length) with
    | Except.error e => Except.error e
    | Except.ok shape => Except.ok (l.length :: shape)
  | SelEntry.coords l :: rest, some e =>
    if e ≠ l.length then Except.error PyErr.broadcastMismatch
    else getSelectionShapeGo rest (some e)

/-- `getSelectionShape(selection)`: one extent per slice dimension and a
single shared extent for all coordinate-list dimensions. -/
def getSelectionShape (selection : List SelEntry) : Except PyErr (List Nat) :=
  getSelectionShapeGo selection none

/-! ### `getSelectionPagination` (dsetUtil.py lines 689-800) -/

/-- The "pagination extent" the dimension-selection loop of
`getSelectionPagination` computes for one entry: the raw index span
`stop - start` for a slice (the stride is *not* divided out), the list
length for a coordinate list. -/
def selSpan : SelEntry → Nat
  | SelEntry.slice s => if s.start < s.stop then s.stop - s.start else 0
  | SelEntry.coords l => l.length

/-- First dimension whose `selSpan` exceeds one, among the first `rank`
entries, together with that entry (lines 705-728).  The source indexes
`select[i]` for `i in range(rank)`; entries beyond the selection's length
would raise `IndexError` there, which is out of scope for the
equal-length call sites modelled here (hence `take rank`). -/
def findPagDimGo : List SelEntry → Nat → Option (Nat × SelEntry)
  | [], _ => none
  | e :: rest, i => if 1 < selSpan e then some (i, e) else findPagDimGo rest (i + 1)

/-- Pagination-dimension search of `getSelectionPagination`. -/
def findPagDim (select : List SelEntry) (rank : Nat) : Option (Nat × SelEntry) :=
  findPagDimGo (select.take rank) 0

/-- The `while start < s.stop` page loop for a slice-valued pagination
dimension (lines 760-770), with explicit fuel; `getSelectionPagination`
supplies fuel `s.stop`, which bounds the iteration count because each
iteration advances `start` by at least one (the page extent is at least
one). -/
def slicePagesGo (sstop step pe : Nat) : Nat → Nat → List Slice
  | _, 0 => []
  | start, fuel + 1 =>
    if start < sstop then
      let stop0 := start + pe
      let stop1 := if stop0 % step ≠ 0 then stop0 + (step - stop0 % step) else stop0
      let stop2 := if sstop < stop1 then sstop else stop1
      ⟨start, stop2, step⟩ :: slicePagesGo sstop step pe stop2 fuel
    else []

/-- The `while start < len(s)` page loop for a coordinate-list pagination
dimension (lines 772-782): consecutive sub-lists of length `pe` (the last
one possibly shorter), with fuel `l.length`. -/
def coordPagesGo (pe : Nat) : List Nat → Nat → List (List Nat)
  | _, 0 => []
  | l, fuel + 1 =>
    if l = [] then [] else l.take pe :: coordPagesGo pe (l.drop pe) fuel

/-- Per-page recombination loop (lines 789-797): dimension `pagdim` gets
the page's entry, every other dimension keeps the original selection's
entry.  As in `findPagDim`, an out-of-range `select[i]` would raise
`IndexError` in the source; the call sites modelled here have
`select.length = rank`. -/
def combinePage (select : List SelEntry) (rank pagdim : Nat) (page : SelEntry) :
    List SelEntry :=
  (List.range rank).map (fun j => if j = pagdim then page else select.getD j defaultEntry)

/-- Page entries for the pagination dimension (the `if isinstance(s, slice)`
body of `getSelectionPagination`, lines 752-782, hoisted into its own
definition): stride-aligned clipped sub-slices for a range entry,
contiguous sub-lists for a coordinate entry. -/
def pageEntriesFor : SelEntry → Nat → List SelEntry
  | SelEntry.slice s, pageExtent =>
    let step := if 0 < s.step ∧ 1 < s.stop then s.step else 1
    (slicePagesGo s.stop step pageExtent s.start s.stop).map SelEntry.slice
  | SelEntry.coords l, pageExtent =>
    (coordPagesGo pageExtent l l.length).map SelEntry.coords

/-- `getSelectionPagination(select, dims, itemsize, max_request_size)`.
A zero `max_request_size` with an oversized selection would be a Python
`ZeroDivisionError` (`select_size // max_request_size`). -/
def getSelectionPagination (select : List SelEntry) (dims : List Nat)
    (itemsize maxRequestSize : Nat) : Except PyErr (List (List SelEntry)) :=
  match getSelectionShape select with
  | Except.error e => Except.error e
  | Except.ok selectShape =>
    let selectSize := selectShape.prod * itemsize
    if selectSize ≤ maxRequestSize then
      Except.ok [select]
    else
      if maxRequestSize = 0 then Except.error PyErr.pyError
      else
        match findPagDim select dims.length with
        | none => Except.error PyErr.valueError
        | some (pagdim, e) =>
          let pageCount := selectSize / maxRequestSize + 1
          let pagExtent := selSpan e
          if pagExtent < pageCount then Except.error PyErr.valueError
          else
            let pageExtent0 := pagExtent / pageCount
            let pageExtent := if pageExtent0 < 1 then 1 else pageExtent0
            Except.ok ((pageEntriesFor e pageExtent).map
              (combinePage select dims.length pagdim))

/-! ### Coordinate sets of selections (specification side)

`rangeSeq start stop step` is the arithmetic progression
`start, start + step, ...` strictly below `stop` — the coordinate set of a
Python `slice` — and `selCoords` is the row-major list of coordinate
tuples covered by a selection. -/

/-- Fuelled generator for `rangeSeq`; fuel `stop - start` suffices whenever
`1 ≤ step`. -/
def rangeSeqGo (stop step : Nat) : Nat → Nat → List Nat
  | _, 0 => []
  | start, fuel + 1 =>
    if start < stop then start :: rangeSeqGo stop step (start + step) fuel else []

/-- The indices selected by `slice(start, stop, step)`. -/
def rangeSeq (start stop step : Nat) : List Nat :=
  rangeSeqGo stop step start (stop - start)

/-- The indices selected by one selection entry. -/
def entryCoords : SelEntry → List Nat
  | SelEntry.slice s => rangeSeq s.start s.stop s.step
  | SelEntry.coords l => l

/-- Row-major list of the coordinate tuples covered by a selection. -/
def selCoords : List SelEntry → List (List Nat)
  | [] => [[]]
  | e :: rest => (entryCoords e).flatMap (fun i => (selCoords rest).map (fun c => i :: c))

/-! ### Filters (`dsetUtil.py` lines 30-212) -/

/-- The numpy dtype of a dataset, abstracted to the only property this
code inspects: whether it contains variable-length elements. -/
structure DType where
  vlen : Bool
  deriving DecidableEq, Repr

/-- `isVlen(dt)` (dsetUtil.py lines 79-93): the recursive walk over
compound members is folded into the `vlen` field of the abstraction. -/
def isVlen (dt : DType) : Bool := dt.vlen

/-- One entry of a dataset's declared filter list.  `fclass` embeds the
`"class"` key (a Python keyword-free rename); absent keys are `none`. -/
structure H5Filter where
  fclass : Option String
  name : Option String
  level : Option Int
  deriving DecidableEq, Repr

/-- `COMPRESSION_FILTER_IDS` (dsetUtil.py lines 47-57). -/
def compressionFilterIds : List String :=
  ["H5Z_FILTER_DEFLATE", "H5Z_FILTER_SZIP", "H5Z_FILTER_SCALEOFFSET",
   "H5Z_FILTER_LZF", "H5Z_FILTER_BLOSC", "H5Z_FILTER_SNAPPY",
   "H5Z_FILTER_LZ4", "H5Z_FILTER_LZ4HC", "H5Z_FILTER_ZSTD"]

/-- `COMPRESSION_FILTER_NAMES` (dsetUtil.py lines 59-68). -/
def compressionFilterNames : List String :=
  ["gzip", "szip", "lzf", "blosclz", "snappy", "lz4", "lz4hc", "zstd"]

/-- `getCompressionFilter(filters)` (dsetUtil.py lines 121-139).  The
`all((...))` tuple there is built eagerly, so `filter["name"]` raises
`KeyError` for any classed filter that is not a compression id and has no
`"name"` key. -/
def getCompressionFilter : List H5Filter → Except PyErr (Option H5Filter)
  | [] => Except.ok none
  | f :: rest =>
    match f.fclass with
    | none => getCompressionFilter rest
    | some cls =>
      if cls ∈ compressionFilterIds then Except.ok (some f)
      else
        match f.name with
        | none => Except.error PyErr.keyError
        | some nm =>
          if cls = "H5Z_FILTER_USER" ∧ nm ∈ compressionFilterNames then
            Except.ok (some f)
          else getCompressionFilter rest

/-- `getShuffleFilter(filters)` (dsetUtil.py lines 142-156). -/
def getShuffleFilter : List H5Filter → Option H5Filter
  | [] => none
  | f :: rest =>
    match f.fclass with
    | none => getShuffleFilter rest
    | some cls =>
      if cls = "H5Z_FILTER_SHUFFLE" ∨ cls = "H5Z_FILTER_BITSHUFFLE" then some f
      else getShuffleFilter rest

/-- A value of the `filter_ops` dict built by `getFilterOps`. -/
inductive FVal where
  | num (n : Int) : FVal
  | str (s : String) : FVal
  | shapeVal (v : Option (List Nat)) : FVal
  | dtypeVal (dt : DType) : FVal
  deriving DecidableEq, Repr

/-- The `filter_ops` dict, as an insertion-ordered key/value list (Python
dict truthiness `if filter_ops:` is `≠ []`). -/
abbrev FilterOps := List (String × FVal)

/-- The per-application `filter_map` memoization dict, keyed by dataset id
(ids abstracted to `Nat`). -/
abbrev FilterMap := List (Nat × FilterOps)

/-- `getFilterOps(app, dset_id, filters, dtype, chunk_shape)`
(dsetUtil.py lines 159-212).  Returns the resolved filter operations (or
`none`) together with the updated `filter_map`; a shuffle filter without
a `"name"` key would raise `KeyError` in the source. -/
def getFilterOps (filterMap : FilterMap) (dsetId : Nat) (filters : List H5Filter)
    (dtype : DType) (chunkShape : Option (List Nat)) :
    Except PyErr (Option FilterOps × FilterMap) := do
  match filterMap.lookup dsetId with
  | some ops => pure (some ops, filterMap)
  | none =>
    let compressionFilter ← getCompressionFilter filters
    let shuffleFilter := getShuffleFilter filters
    let shuffleVal : Except PyErr Int :=
      match shuffleFilter with
      | some sf =>
        if ¬ isVlen dtype then
          match sf.name with
          | none => throw PyErr.keyError
          | some "shuffle" => pure 1
          | some "bitshuffle" => pure 2
          | some _ => pure 0
        else pure 0
      | none => pure 0
    let sh ← shuffleVal
    let filterOps : FilterOps := [("shuffle", FVal.num sh)]
    let filterOps :=
      match compressionFilter with
      | none => filterOps
      | some cf =>
        let compressor :=
          if cf.fclass = some "H5Z_FILTER_DEFLATE" then "zlib"
          else
            match cf.name with
            | some nm => nm
            | none => "lz4"
        let level :=
          match cf.level with
          | none => (5 : Int)
          | some lv => lv
        filterOps ++ [("compressor", FVal.str compressor), ("level", FVal.num level)]
    if filterOps ≠ [] then
      let filterOps := filterOps ++
        [("chunk_shape", FVal.shapeVal chunkShape), ("dtype", FVal.dtypeVal dtype)]
      pure (some filterOps, filterMap ++ [(dsetId, filterOps)])
    else
      pure (none, filterMap)

/-! ### `ItemIterator` (dsetUtil.py lines 1026-1063) -/

/-- Tail-dimension advance of `ItemIterator.next`: starting from the last
dimension, add the stride; on overflow reset to the dimension's start and
carry one dimension to the left.  Returns the updated cursor list and the
carry out of the leftmost processed dimension. -/
def advanceTail : List Slice → List Nat → List Nat × Bool
  | [], [] => ([], true)
  | s :: ss, i :: is =>
    match advanceTail ss is with
    | (is', true) =>
      let i' := i + s.step
      if i' < s.stop then (i' :: is', false) else (s.start :: is', true)
    | (is', false) => (i :: is', false)
  | _, _ => ([], true)

/-- Full cursor advance: like `advanceTail`, except that dimension 0 keeps
its incremented value on overflow (the source resets `_index[dim]` only
`if dim > 0`), which is what later terminates the iteration. -/
def advanceCursor : List Slice → List Nat → List Nat
  | s :: ss, i :: is =>
    (match advanceTail ss is with
     | (is', true) => (i + s.step) :: is'
     | (is', false) => i :: is') 
  | _, _ => []

/-- An item produced by `ItemIterator.next`: a scalar for rank-1
selections, a coordinate tuple otherwise. -/
inductive IterItem where
  | scalar (i : Nat) : IterItem
  | tuple (c : List Nat) : IterItem
  deriving DecidableEq, Repr

/-- The conversion at the end of `ItemIterator.next`
(`if self._rank == 1: index = index[0]`). -/
def emitItem (rank : Nat) (idx : List Nat) : IterItem :=
  if rank = 1 then IterItem.scalar (idx.headD 0) else IterItem.tuple idx

/-- One call of `ItemIterator.next` on cursor `idx`: `none` is
`StopIteration` (`self._index[0] >= self._selection[0].stop`); otherwise
the produced item (the pre-advance cursor copy) and the new cursor. -/
def iterNext (sel : List Slice) (idx : List Nat) : Option (IterItem × List Nat) :=
  match sel, idx with
  | s :: _, i :: _ =>
    if s.stop ≤ i then none
    else some (emitItem sel.length idx, advanceCursor sel idx)
  | _, _ => none

/-- The initial cursor of `ItemIterator.__init__`. -/
def initCursor (sel : List Slice) : List Nat := sel.map Slice.start

/-- Drain the iterator for at most `fuel` steps, collecting the produced
items. -/
def iterRun : Nat → List Slice → List Nat → List IterItem
  | 0, _, _ => []
  | fuel + 1, sel, idx =>
    match iterNext sel idx with
    | none => []
    | some (item, idx') => item :: iterRun fuel sel idx'

/-- State-level variant of `iterRun` (collects the raw cursor copies
instead of the converted items); proofs relate the two by a `map`. -/
def iterRunIdx : Nat → List Slice → List Nat → List (List Nat)
  | 0, _, _ => []
  | fuel + 1, sel, idx =>
    match sel, idx with
    | s :: _, i :: _ =>
      if s.stop ≤ i then []
      else idx :: iterRunIdx fuel sel (advanceCursor sel idx)
    | _, _ => []

/-- Row-major coordinate list of an all-range selection (specification
side; `selCoords` restricted to slices). -/
def sliceCoords : List Slice → List (List Nat)
  | [] => [[]]
  | s :: ss =>
    (rangeSeq s.start s.stop s.step).flatMap (fun i => (sliceCoords ss).map (fun c => i :: c))

/-! ### Handler models (`chunk_dn.py`)

`PUT_Chunk`, `GET_Chunk` and `POST_Chunk` are embedded as pure step
functions from an input record (the request parameters plus the outcomes
of the external collaborators: cache, store, kernels, codecs) to an HTTP
outcome together with the ordered list of externally visible actions.
Request validations that precede everything modelled here (chunk id and
bucket syntax, partition membership, body presence) are assumed to have
passed; the dataset-metadata load (`get_metadata_obj`) is not a chunk
fetch and is not recorded. -/

/-- Externally visible actions of a chunk handler, in program order:
`get_chunk`, `save_chunk`, and the selection/query/point kernels. -/
inductive Ev where
  | fetch : Ev
  | save : Ev
  | readKernel : Ev
  | writeKernel : Ev
  | queryKernel : Ev
  | pointsKernel : Ev
  deriving DecidableEq, Repr

/-- HTTP error responses of the chunk handlers, one constructor per raise
site (see the comments for the HTTP status each one carries). -/
inductive HErr where
  /-- 503 from the chunk-cache capacity check. -/
  | serviceUnavailable : HErr
  /-- 500 from a `ValueError` raised by `getSelectionList`. -/
  | selectionError : HErr
  /-- 400 raised inside `getSelectionShape` (indexing-array mismatch). -/
  | shapeMismatch : HErr
  /-- Failure of the (spec-modelled) `getBroadcastShape`. -/
  | broadcastFailed : HErr
  /-- 500 "failed to create numpy array". -/
  | chunkInitFailed : HErr
  /-- 404 chunk not found. -/
  | chunkNotFound : HErr
  /-- 500 from `BooleanParser` / compound-or-rank preconditions of query. -/
  | queryInvalid : HErr
  /-- 400 PUT query with an empty update body. -/
  | queryMissingUpdate : HErr
  /-- 400 from a `TypeError`/`ValueError` raised by `chunkQuery`. -/
  | queryFailed : HErr
  /-- 400 "Expected content_length of ..." (PUT payload size check). -/
  | payloadSize : HErr
  /-- 500 short body read. -/
  | readIncomplete : HErr
  /-- 400 "unable to decode bytestring". -/
  | decodeFailed : HErr
  /-- 400 invalid fields selection (GET). -/
  | fieldsInvalid : HErr
  /-- 404 GET query with no matching rows. -/
  | noQueryMatch : HErr
  /-- 400 from a `ValueError` raised by the point kernels. -/
  | pointsFailed : HErr
  /-- 400 POST json body without a `select` key. -/
  | bodyMissingSelect : HErr
  /-- 400 s3path combined with a put-points action. -/
  | s3pathWithPut : HErr
  /-- Uncaught Python error (ZeroDivisionError / NameError): aiohttp 500. -/
  | pyCrash : HErr
  deriving DecidableEq, Repr

/-- Modelled from the spec: `getBroadcastShape` lives in
`arrayUtil.py`, which is not part of this repository snapshot.  Spec
§4.2: produce a shape whose trailing dimensions match `mshape` and whose
product equals `element_count`, failing with `BroadcastError` otherwise
(examples: `([3,4],12) ↦ [3,4]`, `([4],12) ↦ [3,4]`, `([5],12)` fails);
`none` (Python `None`) signals that the flat count already matches the
selection shape, in which case `PUT_Chunk` keeps using `mshape`. -/
def getBroadcastShape (mshape : List Nat) (elementCount : Nat) :
    Except PyErr (Option (List Nat)) :=
  if elementCount = mshape.prod then Except.ok none
  else if mshape.prod ≠ 0 ∧ elementCount % mshape.prod = 0 then
    Except.ok (some (elementCount / mshape.prod :: mshape))
  else Except.error PyErr.broadcastError

/-- The content-length validation of the non-query PUT path
(chunk_dn.py lines 262-272): for a fixed-size type the *expected* total
byte count must be an exact multiple of the *actual* payload size
(`expected % actual != 0` in the source); a zero actual size would be a
`ZeroDivisionError`.  Returns the error to raise, if any. -/
def putPayloadCheck (itemsize : Option Nat) (numElements contentLength : Nat) :
    Option HErr :=
  match itemsize with
  | none => none
  | some isz =>
    if contentLength = 0 then some HErr.pyCrash
    else if (numElements * isz) % contentLength ≠ 0 then some HErr.payloadSize
    else none

/-- Input record of `PUT_Chunk`: request parameters plus the outcomes of
the external collaborators it consults. -/
structure PutIn where
  /-- `query` request param. -/
  query : Option String
  /-- `chunk_id in chunk_cache`. -/
  inCache : Bool
  /-- `chunk_cache.memFree`. -/
  memFree : Nat
  /-- config `min_chunk_size`. -/
  minChunkSize : Nat
  /-- chunk layout dims of the dataset. -/
  dims : List Nat
  /-- type size; `none` models `"H5T_VARIABLE"`. -/
  itemsize : Option Nat
  /-- `select` request param. -/
  select : Option String
  /-- `element_count` request param. -/
  elementCount : Option Nat
  /-- `request.content_length`. -/
  contentLength : Nat
  /-- `get_chunk` returned an array (chunk present or initialized). -/
  chunkFound : Bool
  /-- dataset has a chunk initializer. -/
  hasInitializer : Bool
  /-- `dset_dt.fields` is non-empty (compound type). -/
  isCompound : Bool
  /-- `BooleanParser(query)` and `getEvalStr()` succeed. -/
  queryValid : Bool
  /-- the query-update body is non-empty. -/
  queryUpdateNonempty : Bool
  /-- `chunkQuery` raises no `TypeError`/`ValueError`. -/
  queryOk : Bool
  /-- number of rows `chunkQuery` matched. -/
  queryHits : Nat
  /-- `request_read` returned `content_length` bytes. -/
  readFullBody : Bool
  /-- `bytesToArray` succeeds on the payload. -/
  decodeOk : Bool
  /-- `chunkWriteSelection` reports a changed element. -/
  writeDirty : Bool
  /-- config `write_zero_chunks`. -/
  writeZeroChunks : Bool
  deriving DecidableEq, Repr

/-- Number of payload elements `PUT_Chunk` expects: the broadcast shape's
product when an `element_count` was supplied (chunk_dn.py lines 163-172),
the selection shape's product otherwise. -/
def putNumElements (mshape : List Nat) (elementCount : Option Nat) :
    Except HErr Nat :=
  match elementCount with
  | none => Except.ok mshape.prod
  | some ec =>
    match getBroadcastShape mshape ec with
    | Except.error _ => Except.error HErr.broadcastFailed
    | Except.ok (some bs) => Except.ok bs.prod
    | Except.ok none => Except.ok mshape.prod

/-- `PUT_Chunk` from the selection parse onward (everything after the
chunk-cache capacity check; chunk_dn.py lines 149-314). -/
def putChunkTail (inp : PutIn) : Except HErr Nat × List Ev :=
  match getSelectionListCore inp.select inp.dims with
    | Except.error _ => (Except.error HErr.selectionError, [])
    | Except.ok selection =>
      match getSelectionShape selection with
      | Except.error _ => (Except.error HErr.shapeMismatch, [])
      | Except.ok mshape =>
        match putNumElements mshape inp.elementCount with
        | Except.error e => (Except.error e, [])
        | Except.ok numElements =>
          let chunkInit :=
            if inp.hasInitializer then true
            else if inp.query.isSome then false
            else true
          let evs := [Ev.fetch]
          if ¬ inp.chunkFound then
            if chunkInit then (Except.error HErr.chunkInitFailed, evs)
            else (Except.error HErr.chunkNotFound, evs)
          else
            match inp.query with
            | some _ =>
              if ¬ inp.isCompound then (Except.error HErr.queryInvalid, evs)
              else if inp.dims.length ≠ 1 then (Except.error HErr.queryInvalid, evs)
              else if ¬ inp.queryValid then (Except.error HErr.queryInvalid, evs)
              else if ¬ inp.queryUpdateNonempty then
                (Except.error HErr.queryMissingUpdate, evs)
              else
                let evq := evs ++ [Ev.queryKernel]
                if ¬ inp.queryOk then (Except.error HErr.queryFailed, evq)
                else if 0 < inp.queryHits then (Except.ok 201, evq ++ [Ev.save])
                else (Except.ok 200, evq)
            | none =>
              match putPayloadCheck inp.itemsize numElements inp.contentLength with
              | some e => (Except.error e, evs)
              | none =>
                if ¬ inp.readFullBody then (Except.error HErr.readIncomplete, evs)
                else if ¬ inp.decodeOk then (Except.error HErr.decodeFailed, evs)
                else
                  let evw := evs ++ [Ev.writeKernel]
                  if inp.writeDirty ∨ inp.writeZeroChunks then
                    (Except.ok 201, evw ++ [Ev.save])
                  else (Except.ok 200, evw)

/-- Step model of `PUT_Chunk` (chunk_dn.py lines 41-314), from the
chunk-cache capacity check (lines 119-125) onward. -/
def putChunk (inp : PutIn) : Except HErr Nat × List Ev :=
  if ¬ inp.inCache ∧ inp.memFree < inp.minChunkSize then
    (Except.error HErr.serviceUnavailable, [])
  else putChunkTail inp

/-- Input record of `GET_Chunk`. -/
structure GetIn where
  /-- `select` request param. -/
  select : Option String
  /-- chunk layout dims of the dataset. -/
  dims : List Nat
  /-- a `fields` request param is present. -/
  hasFields : Bool
  /-- `getSubType` accepts the requested fields. -/
  fieldsOk : Bool
  /-- dataset has a chunk initializer. -/
  hasInitializer : Bool
  /-- `get_chunk` returned an array. -/
  chunkFound : Bool
  /-- `query` request param. -/
  query : Option String
  /-- query expression compiles. -/
  queryValid : Bool
  /-- `chunkQuery` raises no `TypeError`/`ValueError`. -/
  queryOk : Bool
  /-- the query matched no rows. -/
  queryResultEmpty : Bool
  deriving DecidableEq, Repr

/-- Step model of `GET_Chunk` (chunk_dn.py lines 317-575), from the
selection parse onward. -/
def getChunk (inp : GetIn) : Except HErr Nat × List Ev :=
  match getSelectionListCore inp.select inp.dims with
  | Except.error _ => (Except.error HErr.selectionError, [])
  | Except.ok selection =>
    let evs := [Ev.fetch]
    if ¬ inp.chunkFound then (Except.error HErr.chunkNotFound, evs)
    else
      let evs := if inp.hasInitializer then evs ++ [Ev.save] else evs
      if inp.hasFields ∧ ¬ inp.fieldsOk then (Except.error HErr.fieldsInvalid, evs)
      else
        match inp.query with
        | some _ =>
          if ¬ inp.queryValid then (Except.error HErr.queryInvalid, evs)
          else
            let evq := evs ++ [Ev.queryKernel]
            if ¬ inp.queryOk then (Except.error HErr.queryFailed, evq)
            else if inp.queryResultEmpty then (Except.error HErr.noQueryMatch, evq)
            else (Except.ok 200, evq)
        | none => (Except.ok 200, evs ++ [Ev.readKernel])

/-- Input record of `POST_Chunk`. -/
structure PostIn where
  /-- the request body is binary (point coordinates) rather than json. -/
  contentBinary : Bool
  /-- the `action=put` request param is present. -/
  putPoints : Bool
  /-- an `s3path` request param is present. -/
  hasS3path : Bool
  /-- `bytesToArray` succeeds on the binary point payload. -/
  pointDecodeOk : Bool
  /-- `body["select"]` for a json request (`none` models an absent key). -/
  select : Option String
  /-- chunk layout dims of the dataset. -/
  dims : List Nat
  /-- dataset has a chunk initializer. -/
  hasInitializer : Bool
  /-- `get_chunk` returned an array. -/
  chunkFound : Bool
  /-- the point kernels raise no `ValueError`. -/
  pointsOk : Bool
  deriving DecidableEq, Repr

/-- Step model of `POST_Chunk` (chunk_dn.py lines 578-827), from the
s3path/put-points compatibility check onward.  Note that the selection of
a json (hyperslab-read) request is parsed only *after* the chunk was
fetched and, when an initializer applies, saved. -/
def postChunk (inp : PostIn) : Except HErr Nat × List Ev :=
  if inp.hasS3path ∧ inp.putPoints then (Except.error HErr.s3pathWithPut, [])
  else
    let bodyRes : Except HErr Unit :=
      if inp.contentBinary then
        if ¬ inp.pointDecodeOk then Except.error HErr.pyCrash else Except.ok ()
      else
        match inp.select with
        | none => Except.error HErr.bodyMissingSelect
        | some _ => Except.ok ()
    match bodyRes with
    | Except.error e => (Except.error e, [])
    | Except.ok _ =>
      let chunkInit := if inp.hasInitializer then true else inp.putPoints
      let evs := [Ev.fetch]
      if ¬ inp.chunkFound then (Except.error HErr.chunkNotFound, evs)
      else
        let evs := if chunkInit ∧ ¬ inp.putPoints then evs ++ [Ev.save] else evs
        if inp.putPoints then
          if ¬ inp.contentBinary then (Except.error HErr.pyCrash, evs)
          else
            let evp := evs ++ [Ev.writeKernel]
            if ¬ inp.pointsOk then (Except.error HErr.pointsFailed, evp)
            else (Except.ok 200, evp ++ [Ev.save])
        else if ¬ inp.contentBinary then
          match getSelectionListCore inp.select inp.dims with
          | Except.error _ => (Except.error HErr.selectionError, evs)
          | Except.ok selection => (Except.ok 200, evs ++ [Ev.readKernel])
        else
          let evp := evs ++ [Ev.pointsKernel]
          if ¬ inp.pointsOk then (Except.error HErr.pointsFailed, evp)
          else (Except.ok 200, evp)

/-! ### Specification-side definitions used by the claim theorems -/

/-- Amended shape specification: one `ceil((stop - start) / step)` extent
per range dimension, and a single shared extent — contributed at the
position of the first coordinate list — for all coordinate-list
dimensions.  The flag records whether a coordinate list was already
seen. -/
def shapeSpec : List SelEntry → Bool → List Nat
  | [], _ => []
  | SelEntry.slice s :: rest, seen =>
    (s.stop - s.start + s.step - 1) / s.step :: shapeSpec rest seen
  | SelEntry.coords l :: rest, false => l.length :: shapeSpec rest true
  | SelEntry.coords _ :: rest, true => shapeSpec rest true

/-- Index of the first dimension whose raw span (`stop - start` for a
range, list length for a coordinate list) exceeds one. -/
def firstWideDim : List SelEntry → Option Nat
  | [] => none
  | e :: rest =>
    if 1 < selSpan e then some 0 else (firstWideDim rest).map (fun j => j + 1)

/-- The first page `getSelectionPagination` produces on its pagination
dimension, given nominal page extent `pe`: for a range, the page runs from
`start` to `start + pe` rounded up to the next multiple of the stride and
clipped to `stop`; for a coordinate list, the first `pe` coordinates. -/
def firstPageEntry : SelEntry → Nat → SelEntry
  | SelEntry.slice s, pe =>
    let step := if 0 < s.step ∧ 1 < s.stop then s.step else 1
    let stop0 := s.start + pe
    let stop1 := if stop0 % step ≠ 0 then stop0 + (step - stop0 % step) else stop0
    SelEntry.slice ⟨s.start, min stop1 s.stop, step⟩
  | SelEntry.coords l, pe => SelEntry.coords (l.take pe)

/-- `TrajTo f l t`: the cursor-advance function `f` walks the list `l`
link by link (each element maps to the next with no carry) and maps the
final element to `t`.  Used to show that `advanceTail` traverses exactly
the row-major coordinate list. -/
def TrajTo (f : List Nat → List Nat × Bool) : List (List Nat) → List Nat × Bool → Prop
  | [], _ => True
  | [c], t => f c = t
  | c :: c2 :: rest, t => f c = (c2, false) ∧ TrajTo f (c2 :: rest) t

/-! ### Claim theorems -/

/-- C1 (failing input): paginating the selection `[1:7:3]` over dims `[7]`
with `itemsize = 4` and byte budget `4` (so `budget ≥ item_size`) returns
three pages whose concatenated coordinate sets are `{1}, {3}, {6}` —
not the original selection's coordinate set `{1, 4}`: the stride
realignment of page boundaries assumes the slice's start is a multiple of
its stride, so the pages cover wrong coordinates. -/
theorem pagination_stride_misalignment :
    getSelectionPagination [SelEntry.slice ⟨1, 7, 3⟩] [7] 4 4 =
      Except.ok [[SelEntry.slice ⟨1, 3, 3⟩], [SelEntry.slice ⟨3, 6, 3⟩],
        [SelEntry.slice ⟨6, 7, 3⟩]] ∧
    [[SelEntry.slice ⟨1, 3, 3⟩], [SelEntry.slice ⟨3, 6, 3⟩],
      [SelEntry.slice ⟨6, 7, 3⟩]].flatMap selCoords = [[1], [3], [6]] ∧
    selCoords [SelEntry.slice ⟨1, 7, 3⟩] = [[1], [4]] ∧
    ([[1], [3], [6]] : List (List Nat)) ≠ [[1], [4]] := by
  refine ⟨by decide, by decide, by decide, by decide⟩

/-- C4 (counterexample): for the selection `[0:4:4, 0:10:1]` over dims
`[4, 10]` with `itemsize = 1` and budget `2`, the selection shape is
`[1, 10]` — so the first dimension whose *extent* exceeds 1 is dimension 1
and the claim predicts successful pagination along it — but the code
chooses dimension 0 (its raw `stop - start` span is 4) and then fails with
`ValueError` because that span is smaller than the page count. -/
theorem pagination_dim_choice_cex :
    getSelectionShape [SelEntry.slice ⟨0, 4, 4⟩, SelEntry.slice ⟨0, 10, 1⟩] =
      Except.ok [1, 10] ∧
    getSelectionPagination [SelEntry.slice ⟨0, 4, 4⟩, SelEntry.slice ⟨0, 10, 1⟩]
      [4, 10] 1 2 = Except.error PyErr.valueError := by
  refine ⟨by decide, by decide⟩

/-- C2 (counterexample): resolving an empty filter list (no shuffle entry,
no compression entry) does not return `none`: it returns a descriptor
carrying `shuffle = 0` (and no compressor) and stores it in the
memoization map, because the `shuffle` key is set unconditionally and the
`filter_ops` dict is therefore never empty. -/
theorem getFilterOps_caches_no_filter :
    getShuffleFilter [] = none ∧
    getCompressionFilter [] = Except.ok none ∧
    getFilterOps [] 7 [] ⟨false⟩ none =
      Except.ok
        (some [("shuffle", FVal.num 0), ("chunk_shape", FVal.shapeVal none),
          ("dtype", FVal.dtypeVal ⟨false⟩)],
         [(7, [("shuffle", FVal.num 0), ("chunk_shape", FVal.shapeVal none),
           ("dtype", FVal.dtypeVal ⟨false⟩)])]) := by
  refine ⟨rfl, rfl, by decide⟩

/-- C5 (counterexample): the selection `[[1,2],[3,4]]` (two coordinate
lists of equal length 2 over a rank-2 space) satisfies the data-model
bounds, yet `getSelectionShape` returns `[2]` — a single shared extent for
both coordinate-list dimensions, not one extent per dimension `[2, 2]`. -/
theorem getSelectionShape_coord_collapse :
    getSelectionShape [SelEntry.coords [1, 2], SelEntry.coords [3, 4]] =
      Except.ok [2] ∧
    ([2] : List Nat) ≠ [2, 2] := by
  refine ⟨by decide, by decide⟩

/-- C6 (counterexample): `getSelectionList` happily parses
`[[0,1],[0,1,2]]` over dims `[4, 4]` into two coordinate lists of unequal
lengths 2 and 3 — no broadcast-mismatch error is raised at parse time and
the returned Selection contains unequal coordinate lists. -/
theorem getSelectionList_no_broadcast_check :
    getSelectionList (SelectInput.str "[[0,1],[0,1,2]]") [4, 4] =
      Except.ok [SelEntry.coords [0, 1], SelEntry.coords [0, 1, 2]] ∧
    [0, 1].length ≠ [0, 1, 2].length := by
  refine ⟨by decide, by decide⟩

/-- C7 (counterexample): a POST hyperslab read whose selection string
`[foo]` is invalid still fetches the chunk — and, because the dataset has
a chunk initializer, even persists it — before the selection is parsed;
the parse error is raised only afterwards. -/
theorem postChunk_fetches_before_parse :
    postChunk
      { contentBinary := false, putPoints := false, hasS3path := false,
        pointDecodeOk := true, select := some "[foo]", dims := [4],
        hasInitializer := true, chunkFound := true, pointsOk := true } =
      (Except.error HErr.selectionError, [Ev.fetch, Ev.save]) := by
  decide

/-- C3 (failing input): a PUT of 16 bytes against a `[0:6]` selection of a
4-byte fixed-width type is rejected with the payload-size error even
though 16 is an exact multiple of the per-element size 4: the code
requires `expected % actual == 0` (payload divides the expected total of
24 bytes), not that the payload is a multiple of the element size. -/
theorem putChunk_payload_check_direction :
    putChunk
      { query := none, inCache := true, memFree := 0, minChunkSize := 0,
        dims := [6], itemsize := some 4, select := some "[0:6]",
        elementCount := none, contentLength := 16, chunkFound := true,
        hasInitializer := false, isCompound := false, queryValid := false,
        queryUpdateNonempty := false, queryOk := false, queryHits := 0,
        readFullBody := true, decodeOk := true, writeDirty := true,
        writeZeroChunks := false } =
      (Except.error HErr.payloadSize, [Ev.fetch]) ∧
    16 % 4 = 0 := by
  refine ⟨by decide, by decide⟩

/-- C2 (amended): on a memoization miss where the declared filters contain
neither a shuffle-class nor a compression-class entry, `getFilterOps`
returns a descriptor with `shuffle = 0` and no compressor and *does*
store it in the per-dataset memoization map (so a later call returns the
cached entry instead of re-evaluating the filters). -/
theorem getFilterOps_no_filter_caches :
    ∀ (fm : FilterMap) (d : Nat) (fs : List H5Filter) (dt : DType)
      (cs : Option (List Nat)),
    fm.lookup d = none →
    getShuffleFilter fs = none →
    getCompressionFilter fs = Except.ok none →
    getFilterOps fm d fs dt cs =
      Except.ok
        (some [("shuffle", FVal.num 0), ("chunk_shape", FVal.shapeVal cs),
          ("dtype", FVal.dtypeVal dt)],
         fm ++ [(d, [("shuffle", FVal.num 0), ("chunk_shape", FVal.shapeVal cs),
           ("dtype", FVal.dtypeVal dt)])]) := by
  intro fm d fs dt cs hlk hsh hcf
  simp only [getFilterOps, hlk, hsh, hcf]
  rfl

/-- Witness for `getFilterOps_no_filter_caches`: a fletcher32-only filter
list (neither shuffle nor compression class) on a dataset absent from a
non-empty memoization map. -/
theorem getFilterOps_no_filter_caches_witness :
    getFilterOps [(3, [("shuffle", FVal.num 1)])] 7
      [⟨some "H5Z_FILTER_FLETCHER32", some "fletcher32", none⟩] ⟨false⟩
      (some [10]) =
      Except.ok
        (some [("shuffle", FVal.num 0), (("chunk_shape" : String), FVal.shapeVal (some [10])),
          ("dtype", FVal.dtypeVal ⟨false⟩)],
         [(3, [("shuffle", FVal.num 1)]),
          (7, [("shuffle", FVal.num 0), ("chunk_shape", FVal.shapeVal (some [10])),
           ("dtype", FVal.dtypeVal ⟨false⟩)])]) :=
  getFilterOps_no_filter_caches _ _ _ _ _ (by decide) (by decide) (by decide)

/-- Ceiling division, expressed through floor division and remainder. -/
theorem ceil_div_eq (d st : Nat) (h : 1 ≤ st) :
    (d + st - 1) / st = d / st + (if d % st = 0 then 0 else 1) := by
  have hst : 0 < st := h
  have hdm := Nat.div_add_mod d st
  set q := d / st with hq
  set r := d % st with hr
  have hrlt : r < st := Nat.mod_lt _ hst
  by_cases hr0 : r = 0
  · rw [if_pos hr0]
    have h1 : d + st - 1 = st * q + (st - 1) := by omega
    rw [h1, Nat.mul_add_div hst, Nat.div_eq_of_lt (by omega)]
  · rw [if_neg hr0]
    have h1 : d + st - 1 = st * (q + 1) + (r - 1) := by
      rw [Nat.mul_succ]; omega
    rw [h1, Nat.mul_add_div hst, Nat.div_eq_of_lt (by omega)]

/-- For a well-formed slice, the extent `getSelectionShape` computes is
exactly `ceil((stop - start) / step)`. -/
theorem sliceExtent_eq (s : Slice) (h1 : s.start < s.stop) (h2 : 1 ≤ s.step) :
    sliceExtent s = (s.stop - s.start + s.step - 1) / s.step := by
  have hd : 0 < s.stop - s.start := by omega
  have hsub : (s.stop : Int) - (s.start : Int) = ((s.stop - s.start : Nat) : Int) := by
    omega
  have hmodcast : ((s.stop : Int) - (s.start : Int)) % ((s.step : Nat) : Int) =
      (((s.stop - s.start) % s.step : Nat) : Int) := by
    rw [hsub]; norm_cast
  rcases Nat.lt_or_ge 1 s.step with h3 | h3
  · simp only [sliceExtent, if_pos h1, if_pos (And.intro (by omega : 0 < s.step) h3),
      if_pos (And.intro h3 hd), hmodcast]
    rw [ceil_div_eq (s.stop - s.start) s.step h2]
    by_cases hm : (s.stop - s.start) % s.step = 0
    · rw [if_neg (by simp [hm]), if_pos hm]
      omega
    · rw [if_pos (show ((((s.stop - s.start) % s.step : Nat) : Int)) ≠ 0 by
        exact_mod_cast hm), if_neg hm]
  · have hse : s.step = 1 := by omega
    simp [sliceExtent, hse, h1, Int.emod_one]

/-- Dimension loop of `getSelectionShape` after the first coordinate list
(of length `e`) was seen: later coordinate lists contribute no extent. -/
theorem getSelectionShapeGo_some_spec :
    ∀ (sel : List SelEntry) (e : Nat),
    (∀ s, SelEntry.slice s ∈ sel → s.start < s.stop ∧ 1 ≤ s.step) →
    (∀ l, SelEntry.coords l ∈ sel → l.length = e) →
    getSelectionShapeGo sel (some e) = Except.ok (shapeSpec sel true) := by
  intro sel
  induction sel with
  | nil => intro e _ _; rfl
  | cons hd tl ih =>
    intro e hs hc
    cases hd with
    | slice s =>
      have hwf := hs s (by simp)
      have htl := ih e (fun s' hm => hs s' (by simp [hm]))
        (fun l hm => hc l (by simp [hm]))
      simp only [getSelectionShapeGo, htl, shapeSpec,
        sliceExtent_eq s hwf.1 hwf.2]
    | coords l =>
      have hl := hc l (by simp)
      have htl := ih e (fun s' hm => hs s' (by simp [hm]))
        (fun l' hm => hc l' (by simp [hm]))
      simp only [getSelectionShapeGo, shapeSpec, if_neg (by omega : ¬ e ≠ l.length), htl]

/-- Dimension loop of `getSelectionShape` from the initial state, for
selections whose coordinate lists all have equal length. -/
theorem getSelectionShapeGo_none_spec :
    ∀ (sel : List SelEntry),
    (∀ s, SelEntry.slice s ∈ sel → s.start < s.stop ∧ 1 ≤ s.step) →
    (∀ l1 l2, SelEntry.coords l1 ∈ sel → SelEntry.coords l2 ∈ sel →
      l1.length = l2.length) →
    getSelectionShapeGo sel none = Except.ok (shapeSpec sel false) := by
  intro sel
  induction sel with
  | nil => intro _ _; rfl
  | cons hd tl ih =>
    intro hs hc
    cases hd with
    | slice s =>
      have hwf := hs s (by simp)
      have htl := ih (fun s' hm => hs s' (by simp [hm]))
        (fun l1 l2 h1 h2 => hc l1 l2 (by simp [h1]) (by simp [h2]))
      simp only [getSelectionShapeGo, htl, shapeSpec,
        sliceExtent_eq s hwf.1 hwf.2]
    | coords l =>
      have htl := getSelectionShapeGo_some_spec tl l.length
        (fun s' hm => hs s' (by simp [hm]))
        (fun l' hm => hc l' l (by simp [hm]) (by simp))
      simp only [getSelectionShapeGo, htl, shapeSpec]

/-- C5 (amended): for a selection satisfying the data-model bounds,
`getSelectionShape` returns one extent `ceil((stop - start) / step)` per
range dimension, and one *shared* extent — placed at the first
coordinate-list position — for all coordinate-list dimensions (rather
than one per coordinate-list dimension); in particular all-range
selections get exactly one extent per dimension. -/
theorem getSelectionShape_extents (sel : List SelEntry)
    (hs : ∀ s, SelEntry.slice s ∈ sel → s.start < s.stop ∧ 1 ≤ s.step)
    (hc : ∀ l1 l2, SelEntry.coords l1 ∈ sel → SelEntry.coords l2 ∈ sel →
      l1.length = l2.length) :
    getSelectionShape sel = Except.ok (shapeSpec sel false) :=
  getSelectionShapeGo_none_spec sel hs hc

/-- Witness for `getSelectionShape_extents`, covering the claim's
examples: `[(44,52,1),(48,52,1)] ↦ [8,4]`, `[(3,7,3)] ↦ [2]`,
`[(3,7,1)] ↦ [4]`. -/
theorem getSelectionShape_extents_witness :
    getSelectionShape [SelEntry.slice ⟨44, 52, 1⟩, SelEntry.slice ⟨48, 52, 1⟩] =
      Except.ok (shapeSpec [SelEntry.slice ⟨44, 52, 1⟩, SelEntry.slice ⟨48, 52, 1⟩]
        false) ∧
    shapeSpec [SelEntry.slice ⟨44, 52, 1⟩, SelEntry.slice ⟨48, 52, 1⟩] false =
      [8, 4] ∧
    getSelectionShape [SelEntry.slice ⟨3, 7, 3⟩] = Except.ok [2] ∧
    getSelectionShape [SelEntry.slice ⟨3, 7, 1⟩] = Except.ok [4] := by
  refine ⟨getSelectionShape_extents _ ?_ ?_, by decide, by decide, by decide⟩
  · intro s hm
    rcases List.mem_cons.mp hm with h | h
    · cases SelEntry.slice.inj h; exact ⟨by decide, by decide⟩
    · rcases List.mem_singleton.mp h with h'
      cases SelEntry.slice.inj h'; exact ⟨by decide, by decide⟩
  · intro l1 l2 h1 h2
    rcases List.mem_cons.mp h1 with h | h
    · exact absurd h (by simp)
    · exact absurd (List.mem_singleton.mp h) (by simp)

/-- Once a coordinate extent is recorded, any later coordinate list of a
different length makes the `getSelectionShape` loop fail. -/
theorem getSelectionShapeGo_some_mismatch :
    ∀ (sel : List SelEntry) (e : Nat) (l : List Nat),
    SelEntry.coords l ∈ sel → l.length ≠ e →
    getSelectionShapeGo sel (some e) = Except.error PyErr.broadcastMismatch := by
  intro sel
  induction sel with
  | nil => intro e l hm _; exact absurd hm (by simp)
  | cons hd tl ih =>
    intro e l hm hne
    cases hd with
    | slice s =>
      have hm' : SelEntry.coords l ∈ tl := by
        rcases List.mem_cons.mp hm with h | h
        · exact absurd h (by simp)
        · exact h
      simp only [getSelectionShapeGo, ih e l hm' hne]
    | coords l0 =>
      by_cases h0 : e ≠ l0.length
      · simp only [getSelectionShapeGo, if_pos h0]
      · have he : e = l0.length := by omega
        have hm' : SelEntry.coords l ∈ tl := by
          rcases List.mem_cons.mp hm with h | h
          · exfalso
            have hll : l = l0 := SelEntry.coords.inj h
            rw [hll] at hne
            omega
          · exact h
        simp only [getSelectionShapeGo, if_neg h0, ih e l hm' hne]

/-- C6 (amended): `getSelectionList` itself performs no cross-dimension
length check and can return coordinate lists of unequal length (see the
counterexample); the broadcast-mismatch error is instead raised by
`getSelectionShape`: any selection containing two coordinate lists of
unequal length makes the shape computation fail. -/
theorem getSelectionShape_unequal_coords (sel : List SelEntry) (l1 l2 : List Nat)
    (h1 : SelEntry.coords l1 ∈ sel) (h2 : SelEntry.coords l2 ∈ sel)
    (hne : l1.length ≠ l2.length) :
    getSelectionShape sel = Except.error PyErr.broadcastMismatch := by
  unfold getSelectionShape
  induction sel with
  | nil => exact absurd h1 (by simp)
  | cons hd tl ih =>
    cases hd with
    | slice s =>
      have h1' : SelEntry.coords l1 ∈ tl := by
        rcases List.mem_cons.mp h1 with h | h
        · exact absurd h (by simp)
        · exact h
      have h2' : SelEntry.coords l2 ∈ tl := by
        rcases List.mem_cons.mp h2 with h | h
        · exact absurd h (by simp)
        · exact h
      simp only [getSelectionShapeGo, ih h1' h2']
    | coords l0 =>
      by_cases hb : l1.length = l0.length
      · have hb2 : l2.length ≠ l0.length := by omega
        have h2' : SelEntry.coords l2 ∈ tl := by
          rcases List.mem_cons.mp h2 with h | h
          · exfalso
            have hll : l2 = l0 := SelEntry.coords.inj h
            rw [hll] at hne
            omega
          · exact h
        simp only [getSelectionShapeGo,
          getSelectionShapeGo_some_mismatch tl l0.length l2 h2' hb2]
      · have h1' : SelEntry.coords l1 ∈ tl := by
          rcases List.mem_cons.mp h1 with h | h
          · exfalso
            have hll : l1 = l0 := SelEntry.coords.inj h
            rw [hll] at hb
            omega
          · exact h
        simp only [getSelectionShapeGo,
          getSelectionShapeGo_some_mismatch tl l0.length l1 h1' hb]

/-- Witness for `getSelectionShape_unequal_coords`: the unequal coordinate
lists that `getSelectionList` produced in the counterexample make
`getSelectionShape` fail. -/
theorem getSelectionShape_unequal_coords_witness :
    getSelectionShape [SelEntry.coords [0, 1], SelEntry.coords [0, 1, 2]] =
      Except.error PyErr.broadcastMismatch :=
  getSelectionShape_unequal_coords _ [0, 1] [0, 1, 2] (by simp) (by simp) (by decide)

/-- C8: admission control of `PUT_Chunk`.  A write against a chunk absent
from the cache, issued when the cache's free capacity is below the
configured minimum, fails with the 503 capacity signal and performs no
fetch, no save and no kernel invocation; if the chunk is already
resident, the capacity check never rejects the request: the outcome is
the same as with ample free capacity (`memFree = minChunkSize` makes the
check pass, and `memFree` is used nowhere else). -/
theorem putChunk_admission_control (inp : PutIn) :
    (inp.inCache = false → inp.memFree < inp.minChunkSize →
      putChunk inp = (Except.error HErr.serviceUnavailable, [])) ∧
    (inp.inCache = true →
      putChunk inp = putChunk { inp with memFree := inp.minChunkSize }) := by
  constructor
  · intro h1 h2
    unfold putChunk
    rw [if_pos (by simp [h1, h2])]
  · intro h1
    cases inp with
    | mk q ic mf mcs d isz sel ec cl cf hinit icomp qv qup qok qh rfb dok wd wzc =>
      have h1' : ic = true := h1
      subst h1'
      simp only [putChunk]
      rw [if_neg (by simp), if_neg (by simp)]
      rfl

/-- Witness for `putChunk_admission_control`: a concrete over-capacity
write against a non-resident chunk, and the same request against a
resident chunk. -/
theorem putChunk_admission_control_witness :
    putChunk
      { query := none, inCache := false, memFree := 5, minChunkSize := 100,
        dims := [4], itemsize := some 1, select := none, elementCount := none,
        contentLength := 4, chunkFound := true, hasInitializer := false,
        isCompound := false, queryValid := false, queryUpdateNonempty := false,
        queryOk := false, queryHits := 0, readFullBody := true, decodeOk := true,
        writeDirty := true, writeZeroChunks := false } =
      (Except.error HErr.serviceUnavailable, []) ∧
    putChunk
      { query := none, inCache := true, memFree := 5, minChunkSize := 100,
        dims := [4], itemsize := some 1, select := none, elementCount := none,
        contentLength := 4, chunkFound := true, hasInitializer := false,
        isCompound := false, queryValid := false, queryUpdateNonempty := false,
        queryOk := false, queryHits := 0, readFullBody := true, decodeOk := true,
        writeDirty := true, writeZeroChunks := false } =
      putChunk
      { query := none, inCache := true, memFree := 100, minChunkSize := 100,
        dims := [4], itemsize := some 1, select := none, elementCount := none,
        contentLength := 4, chunkFound := true, hasInitializer := false,
        isCompound := false, queryValid := false, queryUpdateNonempty := false,
        queryOk := false, queryHits := 0, readFullBody := true, decodeOk := true,
        writeDirty := true, writeZeroChunks := false } := by
  exact ⟨(putChunk_admission_control _).1 rfl (by decide),
    (putChunk_admission_control _).2 rfl⟩

/-- C9: a structured (dict) selection request is parsed by first rendering
it to the equivalent selection string and then running the common string
path, so it produces exactly the Selection of the string form with the
same bounds. -/
theorem getSelectionList_body_str_equiv (b : ReqBody) (dims : List Nat) (s : String)
    (h : getSelectionStringFromRequestBody b = Except.ok s) :
    getSelectionList (SelectInput.body b) dims = getSelectionList (SelectInput.str s) dims := by
  simp [getSelectionList, h]

/-- Witness for `getSelectionList_body_str_equiv`: the structured request
`start=[1], stop=[5], step=[2]` renders to `"[1:5:2]"` and both input
forms parse to the slice `1:5:2`. -/
theorem getSelectionList_body_str_equiv_witness :
    getSelectionStringFromRequestBody ⟨some [1], some [5], some [2]⟩ =
      Except.ok "[1:5:2]" ∧
    getSelectionList (SelectInput.body ⟨some [1], some [5], some [2]⟩) [10] =
      getSelectionList (SelectInput.str "[1:5:2]") [10] ∧
    getSelectionList (SelectInput.str "[1:5:2]") [10] =
      Except.ok [SelEntry.slice ⟨1, 5, 2⟩] := by
  refine ⟨by decide, getSelectionList_body_str_equiv _ _ _ (by decide), by decide⟩

/-- C7 (amended): for PUT and GET chunk operations every selection-parsing
error is raised before any fetch, save or kernel invocation (the event
trace is empty); for a POST hyperslab read, however, the chunk is fetched
— and, when a chunk initializer applies, saved — *before* the selection
is parsed, and an invalid selection then aborts before any read or write
kernel runs. -/
theorem chunk_handlers_parse_order (pi : PutIn) (gi : GetIn) (po : PostIn)
    (e1 e2 e3 : PyErr) (s : String) :
    (getSelectionListCore pi.select pi.dims = Except.error e1 →
      ∃ he, putChunk pi = (Except.error he, [])) ∧
    (getSelectionListCore gi.select gi.dims = Except.error e2 →
      getChunk gi = (Except.error HErr.selectionError, [])) ∧
    (po.contentBinary = false → po.putPoints = false → po.hasS3path = false →
      po.select = some s → po.chunkFound = true →
      getSelectionListCore po.select po.dims = Except.error e3 →
      postChunk po = (Except.error HErr.selectionError,
        Ev.fetch :: (if po.hasInitializer then [Ev.save] else []))) := by
  refine ⟨?_, ?_, ?_⟩
  · intro h
    by_cases hc : ¬ pi.inCache = true ∧ pi.memFree < pi.minChunkSize
    · exact ⟨HErr.serviceUnavailable, by unfold putChunk; rw [if_pos hc]⟩
    · refine ⟨HErr.selectionError, ?_⟩
      unfold putChunk
      rw [if_neg hc]
      unfold putChunkTail
      rw [h]
  · intro h
    unfold getChunk
    rw [h]
  · intro hb hp hs3 hsel hcf herr
    have herr' : getSelectionListCore (some s) po.dims = Except.error e3 := by
      rw [← hsel]; exact herr
    rcases hin : po.hasInitializer with _ | _ <;>
      simp [postChunk, hb, hp, hs3, hsel, hcf, hin, herr']

/-- Witness for `chunk_handlers_parse_order`: concrete PUT, GET and POST
requests whose selection string `[foo]` is invalid. -/
theorem chunk_handlers_parse_order_witness :
    (∃ he, putChunk
      { query := none, inCache := true, memFree := 0, minChunkSize := 0,
        dims := [4], itemsize := some 1, select := some "[foo]",
        elementCount := none, contentLength := 4, chunkFound := true,
        hasInitializer := false, isCompound := false, queryValid := false,
        queryUpdateNonempty := false, queryOk := false, queryHits := 0,
        readFullBody := true, decodeOk := true, writeDirty := true,
        writeZeroChunks := false } = (Except.error he, [])) ∧
    getChunk
      { select := some "[foo]", dims := [4], hasFields := false,
        fieldsOk := true, hasInitializer := false, chunkFound := true,
        query := none, queryValid := true, queryOk := true,
        queryResultEmpty := false } =
      (Except.error HErr.selectionError, []) ∧
    postChunk
      { contentBinary := false, putPoints := false, hasS3path := false,
        pointDecodeOk := true, select := some "[foo]", dims := [4],
        hasInitializer := false, chunkFound := true, pointsOk := true } =
      (Except.error HErr.selectionError, [Ev.fetch]) := by
  refine ⟨?_, ?_, ?_⟩
  · exact (chunk_handlers_parse_order _
      { select := some "[foo]", dims := [4], hasFields := false,
        fieldsOk := true, hasInitializer := false, chunkFound := true,
        query := none, queryValid := true, queryOk := true,
        queryResultEmpty := false }
      { contentBinary := false, putPoints := false, hasS3path := false,
        pointDecodeOk := true, select := some "[foo]", dims := [4],
        hasInitializer := false, chunkFound := true, pointsOk := true }
      PyErr.valueError PyErr.valueError PyErr.valueError "[foo]").1 (by decide)
  · exact (chunk_handlers_parse_order
      { query := none, inCache := true, memFree := 0, minChunkSize := 0,
        dims := [4], itemsize := some 1, select := some "[foo]",
        elementCount := none, contentLength := 4, chunkFound := true,
        hasInitializer := false, isCompound := false, queryValid := false,
        queryUpdateNonempty := false, queryOk := false, queryHits := 0,
        readFullBody := true, decodeOk := true, writeDirty := true,
        writeZeroChunks := false } _
      { contentBinary := false, putPoints := false, hasS3path := false,
        pointDecodeOk := true, select := some "[foo]", dims := [4],
        hasInitializer := false, chunkFound := true, pointsOk := true }
      PyErr.valueError PyErr.valueError PyErr.valueError "[foo]").2.1 (by decide)
  · exact (chunk_handlers_parse_order
      { query := none, inCache := true, memFree := 0, minChunkSize := 0,
        dims := [4], itemsize := some 1, select := some "[foo]",
        elementCount := none, contentLength := 4, chunkFound := true,
        hasInitializer := false, isCompound := false, queryValid := false,
        queryUpdateNonempty := false, queryOk := false, queryHits := 0,
        readFullBody := true, decodeOk := true, writeDirty := true,
        writeZeroChunks := false }
      { select := some "[foo]", dims := [4], hasFields := false,
        fieldsOk := true, hasInitializer := false, chunkFound := true,
        query := none, queryValid := true, queryOk := true,
        queryResultEmpty := false } _
      PyErr.valueError PyErr.valueError PyErr.valueError "[foo]").2.2
      rfl rfl rfl rfl rfl (by decide)

/-- C3 (amended): a non-query PUT that reaches the payload check is
rejected with the payload-size error if and only if the element type is
fixed-width and the *expected total byte count* (number of selected or
broadcast elements times the per-element size) is not an exact multiple
of the inbound payload size (`expected % actual != 0`); for
variable-length element types no payload size is ever rejected with that
error. -/
theorem putChunk_payload_size_rule (inp : PutIn) (sel : List SelEntry)
    (mshape : List Nat) (nelems : Nat)
    (hq : inp.query = none)
    (hcap : inp.inCache = true ∨ inp.minChunkSize ≤ inp.memFree)
    (hsel : getSelectionListCore inp.select inp.dims = Except.ok sel)
    (hsh : getSelectionShape sel = Except.ok mshape)
    (hne : putNumElements mshape inp.elementCount = Except.ok nelems)
    (hcf : inp.chunkFound = true)
    (hcl : 0 < inp.contentLength) :
    (putChunk inp).1 = Except.error HErr.payloadSize ↔
      ∃ isz, inp.itemsize = some isz ∧ (nelems * isz) % inp.contentLength ≠ 0 := by
  unfold putChunk
  rw [if_neg (by
    rintro ⟨h1', h2'⟩
    rcases hcap with h | h
    · exact h1' h
    · omega)]
  unfold putChunkTail
  simp only [hsel, hsh, hne, hq, hcf]
  rcases hit : inp.itemsize with _ | isz
  · simp only [hit, putPayloadCheck]
    constructor
    · intro hres
      exfalso
      revert hres
      cases hrb : inp.readFullBody <;> cases hdo : inp.decodeOk <;>
        cases hwd : inp.writeDirty <;> cases hwz : inp.writeZeroChunks <;> simp
    · rintro ⟨isz', hisz', _⟩
      exact Option.noConfusion hisz'
  · simp only [hit, putPayloadCheck]
    rw [if_neg (show ¬ inp.contentLength = 0 by omega)]
    by_cases hm : nelems * isz % inp.contentLength = 0
    · rw [if_neg (show ¬ nelems * isz % inp.contentLength ≠ 0 by omega)]
      constructor
      · intro hres
        exfalso
        revert hres
        cases hrb : inp.readFullBody <;> cases hdo : inp.decodeOk <;>
          cases hwd : inp.writeDirty <;> cases hwz : inp.writeZeroChunks <;> simp
      · rintro ⟨isz', hisz', hm'⟩
        cases Option.some.inj hisz'
        exact (hm' hm).elim
    · rw [if_pos hm]
      constructor
      · intro _
        exact ⟨isz, rfl, hm⟩
      · intro _
        rfl

/-- Witness for `putChunk_payload_size_rule`: a 16-byte payload against a
`[0:6]` selection of a 4-byte type; the expected total is 24 bytes and
24 % 16 ≠ 0, so the request is rejected with the payload-size error. -/
theorem putChunk_payload_size_rule_witness :
    (putChunk
      { query := none, inCache := true, memFree := 0, minChunkSize := 0,
        dims := [6], itemsize := some 4, select := some "[0:6]",
        elementCount := none, contentLength := 16, chunkFound := true,
        hasInitializer := false, isCompound := false, queryValid := false,
        queryUpdateNonempty := false, queryOk := false, queryHits := 0,
        readFullBody := true, decodeOk := true, writeDirty := true,
        writeZeroChunks := false }).1 = Except.error HErr.payloadSize ↔
      ∃ isz, (some 4 : Option Nat) = some isz ∧ (6 * isz) % 16 ≠ 0 :=
  putChunk_payload_size_rule _ [SelEntry.slice ⟨0, 6, 1⟩] [6] 6
    rfl (Or.inl rfl) (by decide) (by decide) (by decide) rfl (by decide)

/-- The pagination-dimension search equals the specification-side "first
dimension whose span exceeds one", paired with that dimension's entry. -/
theorem findPagDimGo_eq :
    ∀ (l : List SelEntry) (k : Nat),
    findPagDimGo l k = (firstWideDim l).map (fun j => (k + j, l.getD j defaultEntry)) := by
  intro l
  induction l with
  | nil => intro k; rfl
  | cons e rest ih =>
    intro k
    by_cases h : 1 < selSpan e
    · simp [findPagDimGo, firstWideDim, h]
    · simp only [findPagDimGo, firstWideDim, if_neg h, ih (k + 1), Option.map_map]
      rcases firstWideDim rest with _ | j
      · rfl
      · simp only [Option.map_some', Function.comp]
        refine congrArg some ?_
        refine Prod.ext ?_ ?_
        · simp; omega
        · simp [List.getD_cons_succ]

/-- A successful pagination-dimension search yields an in-range index
whose entry has span greater than one. -/
theorem firstWideDim_spec :
    ∀ (l : List SelEntry) (i : Nat), firstWideDim l = some i →
    i < l.length ∧ 1 < selSpan (l.getD i defaultEntry) := by
  intro l
  induction l with
  | nil => intro i h; exact Option.noConfusion h
  | cons e rest ih =>
    intro i h
    by_cases hw : 1 < selSpan e
    · simp only [firstWideDim, if_pos hw] at h
      cases Option.some.inj h
      exact ⟨by simp, by simpa [List.getD_cons_zero] using hw⟩
    · simp only [firstWideDim, if_neg hw] at h
      rcases hrest : firstWideDim rest with _ | j
      · rw [hrest] at h; exact Option.noConfusion h
      · rw [hrest] at h
        cases Option.some.inj h
        have := ih j hrest
        exact ⟨by simp; omega, by simpa [List.getD_cons_succ] using this.2⟩

/-- `getD` after `set` at a different index is unchanged. -/
theorem getD_set_ne {α : Type} (l : List α) (i j : Nat) (a d : α) (h : i ≠ j) :
    (l.set i a).getD j d = l.getD j d := by
  rw [List.getD_eq_getElem?_getD, List.getD_eq_getElem?_getD, List.getElem?_set,
    if_neg h]

/-- The per-page recombination loop is `List.set` at the pagination
dimension (for the in-range, rank-equals-length regime). -/
theorem combinePage_eq_set (l : List SelEntry) (i : Nat) (p : SelEntry)
    (hi : i < l.length) :
    combinePage l l.length i p = l.set i p := by
  apply List.ext_getElem?
  intro k
  rw [List.getElem?_set]
  by_cases hk : k < l.length
  · rw [combinePage, List.getElem?_map, List.getElem?_range hk, Option.map_some']
    by_cases hki : k = i
    · subst hki
      rw [if_pos rfl, if_pos rfl, if_pos hk]
    · rw [if_neg hki, if_neg (fun he => hki he.symm),
        List.getD_eq_getElem _ _ hk, List.getElem?_eq_getElem hk]
  · rw [combinePage, List.getElem?_map,
      List.getElem?_eq_none (by simpa using hk), Option.map_none',
      List.getElem?_eq_none (by omega)]
    by_cases hik : i = k
    · rw [if_pos hik, if_neg (by omega)]
    · rw [if_neg hik]

/-- Nat form of the page-boundary clip `if sstop < x then sstop else x`. -/
theorem clip_eq_min (a b : Nat) : (if b < a then b else a) = min a b := by
  rw [Nat.min_def]
  by_cases h : b < a
  · rw [if_pos h, if_neg (by omega)]
  · rw [if_neg h, if_pos (by omega)]

/-- One unfolding of the slice page loop, with the boundary clip written
as a `min`. -/
theorem slicePagesGo_cons (sstop step pe start f : Nat) (h : start < sstop) :
    slicePagesGo sstop step pe start (f + 1) =
      Slice.mk start
        (min (if (start + pe) % step ≠ 0 then
          start + pe + (step - (start + pe) % step) else start + pe) sstop)
        step ::
      slicePagesGo sstop step pe
        (min (if (start + pe) % step ≠ 0 then
          start + pe + (step - (start + pe) % step) else start + pe) sstop) f := by
  simp only [slicePagesGo, if_pos h, clip_eq_min]

/-- One unfolding of the coordinate page loop. -/
theorem coordPagesGo_cons (pe : Nat) (l : List Nat) (f : Nat) (hl : l ≠ []) :
    coordPagesGo pe l (f + 1) = l.take pe :: coordPagesGo pe (l.drop pe) f := by
  simp only [coordPagesGo, if_neg hl]

/-- `slicePagesGo_cons` for any positive fuel. -/
theorem slicePagesGo_cons' (sstop step pe start fuel : Nat)
    (h : start < sstop) (hf : 0 < fuel) :
    slicePagesGo sstop step pe start fuel =
      Slice.mk start
        (min (if (start + pe) % step ≠ 0 then
          start + pe + (step - (start + pe) % step) else start + pe) sstop)
        step ::
      slicePagesGo sstop step pe
        (min (if (start + pe) % step ≠ 0 then
          start + pe + (step - (start + pe) % step) else start + pe) sstop)
        (fuel - 1) := by
  rcases fuel with _ | f
  · omega
  · simpa using slicePagesGo_cons sstop step pe start f h

/-- `coordPagesGo_cons` for any positive fuel. -/
theorem coordPagesGo_cons' (pe : Nat) (l : List Nat) (fuel : Nat)
    (hl : l ≠ []) (hf : 0 < fuel) :
    coordPagesGo pe l fuel = l.take pe :: coordPagesGo pe (l.drop pe) (fuel - 1) := by
  rcases fuel with _ | f
  · omega
  · simpa using coordPagesGo_cons pe l f hl

/-- C4 (amended): when the selection's byte size exceeds the budget,
`getSelectionPagination` picks as pagination dimension the first
dimension whose *raw span* (`stop - start` for a range — the stride is
not divided out — or the list length for a coordinate list) exceeds one;
it fails with `ValueError` if no such dimension exists *or* if that
span is smaller than `page_count = floor(total_bytes / max_bytes) + 1`;
otherwise it succeeds with a non-empty page sequence whose first page
splits the chosen dimension at nominal extent
`page_extent = floor(span / page_count)` (the minimum-1 clamp is inert
here since `span ≥ page_count`) — stride-aligned and clipped for a
range, a `take` prefix for a coordinate list — and whose pages all keep
every non-pagination dimension equal to the original selection's
entry. -/
theorem getSelectionPagination_structure (select : List SelEntry) (dims : List Nat)
    (itemsize maxsize : Nat) (shp : List Nat)
    (hlen : select.length = dims.length)
    (hmax : 1 ≤ maxsize)
    (hsh : getSelectionShape select = Except.ok shp)
    (hbig : maxsize < shp.prod * itemsize) :
    match firstWideDim select with
    | none =>
      getSelectionPagination select dims itemsize maxsize =
        Except.error PyErr.valueError
    | some i =>
      if selSpan (select.getD i defaultEntry) < shp.prod * itemsize / maxsize + 1 then
        getSelectionPagination select dims itemsize maxsize =
          Except.error PyErr.valueError
      else
        ∃ pages,
          getSelectionPagination select dims itemsize maxsize = Except.ok pages ∧
          pages ≠ [] ∧
          pages.head? = some (select.set i
            (firstPageEntry (select.getD i defaultEntry)
              (selSpan (select.getD i defaultEntry) /
                (shp.prod * itemsize / maxsize + 1)))) ∧
          ∀ p ∈ pages, ∀ j, j ≠ i →
            p.getD j defaultEntry = select.getD j defaultEntry := by
  have hfind : findPagDim select dims.length =
      (firstWideDim select).map (fun j => (j, select.getD j defaultEntry)) := by
    unfold findPagDim
    rw [← hlen, List.take_length, findPagDimGo_eq]
    simp
  rcases hfw : firstWideDim select with _ | i
  · simp only
    simp only [getSelectionPagination, hsh]
    rw [if_neg (show ¬ shp.prod * itemsize ≤ maxsize by omega),
      if_neg (show ¬ maxsize = 0 by omega), hfind, hfw]
    rfl
  · obtain ⟨hilen, hispan⟩ := firstWideDim_spec select i hfw
    simp only
    by_cases hspan :
        selSpan (select.getD i defaultEntry) < shp.prod * itemsize / maxsize + 1
    · rw [if_pos hspan]
      simp only [getSelectionPagination, hsh]
      rw [if_neg (show ¬ shp.prod * itemsize ≤ maxsize by omega),
        if_neg (show ¬ maxsize = 0 by omega), hfind, hfw]
      simp only [Option.map_some']
      rw [if_pos hspan]
    · rw [if_neg hspan]
      have hpe1 : 1 ≤ selSpan (select.getD i defaultEntry) /
          (shp.prod * itemsize / maxsize + 1) :=
        (Nat.one_le_div_iff (Nat.succ_pos _)).mpr (by omega)
      simp only [getSelectionPagination, hsh]
      rw [if_neg (show ¬ shp.prod * itemsize ≤ maxsize by omega),
        if_neg (show ¬ maxsize = 0 by omega), hfind, hfw]
      simp only [Option.map_some']
      rw [if_neg hspan, if_neg (show ¬ selSpan (select.getD i defaultEntry) /
        (shp.prod * itemsize / maxsize + 1) < 1 by omega)]
      rcases hei : select.getD i defaultEntry with s | l
      · -- range-valued pagination dimension
        have hs : s.start < s.stop ∧ 1 < s.stop - s.start := by
          rw [hei] at hispan
          simp only [selSpan] at hispan
          by_cases hss : s.start < s.stop
          · rw [if_pos hss] at hispan; exact ⟨hss, hispan⟩
          · rw [if_neg hss] at hispan; omega
        simp only [pageEntriesFor]
        rw [slicePagesGo_cons' _ _ _ _ _ (by omega) (by omega)]
        refine ⟨_, rfl, by simp, ?_, ?_⟩
        · simp only [List.map_cons, List.head?_cons, Option.some.injEq]
          rw [← hlen, combinePage_eq_set _ _ _ hilen]
          rfl
        · intro p hp j hj
          obtain ⟨q, hq, rfl⟩ := List.mem_map.mp hp
          rw [← hlen, combinePage_eq_set _ _ _ hilen]
          exact getD_set_ne _ _ _ _ _ (fun hij => hj hij.symm)
      · -- coordinate-list-valued pagination dimension
        have hl : l ≠ [] := by
          rw [hei] at hispan
          simp only [selSpan] at hispan
          intro hnil
          rw [hnil] at hispan
          simp at hispan
        have hlpos : 0 < l.length := by
          cases l
          · exact absurd rfl hl
          · simp
        simp only [pageEntriesFor]
        rw [coordPagesGo_cons' _ _ _ hl hlpos]
        refine ⟨_, rfl, by simp, ?_, ?_⟩
        · simp only [List.map_cons, List.head?_cons, Option.some.injEq]
          rw [← hlen, combinePage_eq_set _ _ _ hilen]
          rfl
        · intro p hp j hj
          obtain ⟨q, hq, rfl⟩ := List.mem_map.mp hp
          rw [← hlen, combinePage_eq_set _ _ _ hilen]
          exact getD_set_ne _ _ _ _ _ (fun hij => hj hij.symm)

/-- Witness for `getSelectionPagination_structure`: the selection
`[1:7:3]` over dims `[7]` with `itemsize = 4` and budget `4` (shape `[2]`,
8 bytes > 4): dimension 0 has span 6, page_count is 3 and page_extent 2,
and the first returned page is `1:3:3`. -/
theorem getSelectionPagination_structure_witness :
    firstWideDim [SelEntry.slice ⟨1, 7, 3⟩] = some 0 ∧
    ¬ selSpan ([SelEntry.slice ⟨1, 7, 3⟩].getD 0 defaultEntry) <
      [2].prod * 4 / 4 + 1 ∧
    ∃ pages,
      getSelectionPagination [SelEntry.slice ⟨1, 7, 3⟩] [7] 4 4 = Except.ok pages ∧
      pages ≠ [] ∧
      pages.head? = some ([SelEntry.slice ⟨1, 7, 3⟩].set 0
        (firstPageEntry ([SelEntry.slice ⟨1, 7, 3⟩].getD 0 defaultEntry)
          (selSpan ([SelEntry.slice ⟨1, 7, 3⟩].getD 0 defaultEntry) /
            ([2].prod * 4 / 4 + 1)))) ∧
      ∀ p ∈ pages, ∀ j, j ≠ 0 →
        p.getD j defaultEntry = [SelEntry.slice ⟨1, 7, 3⟩].getD j defaultEntry := by
  have h := getSelectionPagination_structure [SelEntry.slice ⟨1, 7, 3⟩] [7] 4 4 [2]
    (by decide) (by decide) (by decide) (by decide)
  rw [show firstWideDim [SelEntry.slice ⟨1, 7, 3⟩] = some 0 from by decide] at h
  simp only at h
  rw [if_neg (by decide)] at h
  exact ⟨by decide, by decide, h⟩

/-- `rangeSeqGo` is empty past the stop bound, for any fuel. -/
theorem rangeSeqGo_stop (stop step start fuel : Nat) (h : stop ≤ start) :
    rangeSeqGo stop step start fuel = [] := by
  rcases fuel with _ | f
  · rfl
  · simp only [rangeSeqGo, if_neg (by omega : ¬ start < stop)]

/-- `rangeSeqGo` does not depend on the fuel once it covers the remaining
span (for positive step). -/
theorem rangeSeqGo_fuel (stop step : Nat) (hst : 1 ≤ step) :
    ∀ (f1 : Nat) (start : Nat) (f2 : Nat), stop - start ≤ f1 → stop - start ≤ f2 →
    rangeSeqGo stop step start f1 = rangeSeqGo stop step start f2 := by
  intro f1
  induction f1 with
  | zero =>
    intro start f2 h1 h2
    rw [rangeSeqGo_stop _ _ _ _ (by omega), rangeSeqGo_stop _ _ _ _ (by omega)]
  | succ f ih =>
    intro start f2 h1 h2
    by_cases hss : start < stop
    · rcases f2 with _ | f2'
      · omega
      · simp only [rangeSeqGo, if_pos hss]
        rw [ih (start + step) f2' (by omega) (by omega)]
    · rw [rangeSeqGo_stop _ _ _ _ (by omega), rangeSeqGo_stop _ _ _ _ (by omega)]

/-- Unfolding of `rangeSeq` below the bound. -/
theorem rangeSeq_cons (start stop step : Nat) (hst : 1 ≤ step) (h : start < stop) :
    rangeSeq start stop step = start :: rangeSeq (start + step) stop step := by
  unfold rangeSeq
  have hd : stop - start = (stop - start - 1) + 1 := by omega
  rw [hd]
  simp only [rangeSeqGo, if_pos h]
  rw [rangeSeqGo_fuel stop step hst (stop - start - 1) (start + step)
    (stop - (start + step)) (by omega) (by omega)]

/-- `rangeSeq` is empty at or past the bound. -/
theorem rangeSeq_nil (start stop step : Nat) (h : stop ≤ start) :
    rangeSeq start stop step = [] := by
  unfold rangeSeq
  exact rangeSeqGo_stop _ _ _ _ h

/-- The row-major coordinate list of a valid all-range selection starts
with the initial cursor. -/
theorem sliceCoords_head :
    ∀ (ss : List Slice), (∀ s ∈ ss, s.start < s.stop ∧ 1 ≤ s.step) →
    ∃ t, sliceCoords ss = initCursor ss :: t := by
  intro ss
  induction ss with
  | nil => intro _; exact ⟨[], rfl⟩
  | cons s ss ih =>
    intro hv
    obtain ⟨t, ht⟩ := ih (fun x hx => hv x (List.mem_cons_of_mem _ hx))
    have hs := hv s (List.mem_cons_self _ _)
    refine ⟨t.map (fun c => s.start :: c) ++
      (rangeSeq (s.start + s.step) s.stop s.step).flatMap
        (fun i => (sliceCoords ss).map (fun c => i :: c)), ?_⟩
    show (rangeSeq s.start s.stop s.step).flatMap
      (fun i => (sliceCoords ss).map (fun c => i :: c)) = _
    rw [rangeSeq_cons _ _ _ hs.2 hs.1, List.flatMap_cons, ht, List.map_cons]
    rfl

/-- Gluing lemma for `TrajTo`. -/
theorem TrajTo_append (f : List Nat → List Nat × Bool) :
    ∀ (xs : List (List Nat)) (y : List Nat) (ys : List (List Nat))
      (t : List Nat × Bool),
    TrajTo f xs (y, false) → TrajTo f (y :: ys) t → TrajTo f (xs ++ y :: ys) t := by
  intro xs
  induction xs with
  | nil => intro y ys t _ h2; exact h2
  | cons c xs' ih =>
    intro y ys t h1 h2
    cases xs' with
    | nil => exact ⟨h1, h2⟩
    | cons c2 xs'' => exact ⟨h1.1, ih y ys t h1.2 h2⟩

/-- Lifting a tail trajectory through one more (leftmost) dimension with
fixed head value `i`: inside the block the head is unchanged, and the
block's last element advances the head by the stride — with carry
exactly when the advanced head leaves the slice. -/
theorem TrajTo_lift (s : Slice) (ss : List Slice) (i : Nat) (tfin : List Nat) :
    ∀ (L : List (List Nat)), TrajTo (advanceTail ss) L (tfin, true) →
    TrajTo (advanceTail (s :: ss)) (L.map (fun c => i :: c))
      (if i + s.step < s.stop then ((i + s.step) :: tfin, false)
       else (s.start :: tfin, true)) := by
  intro L
  induction L with
  | nil => intro _; trivial
  | cons c rest ih =>
    cases rest with
    | nil =>
      intro h
      have h' : advanceTail ss c = (tfin, true) := h
      show advanceTail (s :: ss) (i :: c) = _
      simp only [advanceTail, h']
    | cons c2 rest' =>
      intro h
      refine ⟨?_, ih h.2⟩
      show advanceTail (s :: ss) (i :: c) = (i :: c2, false)
      simp only [advanceTail, h.1]

/-- `advanceTail` walks the row-major coordinate list of a valid all-range
selection link by link and carries out of the last element back to the
initial cursor. -/
theorem sliceCoords_traj :
    ∀ (ss : List Slice), (∀ s ∈ ss, s.start < s.stop ∧ 1 ≤ s.step) →
    TrajTo (advanceTail ss) (sliceCoords ss) (initCursor ss, true) := by
  intro ss
  induction ss with
  | nil =>
    intro _
    show advanceTail [] [] = ([], true)
    rfl
  | cons s ss ih =>
    intro hv
    have hv' : ∀ x ∈ ss, x.start < x.stop ∧ 1 ≤ x.step :=
      fun x hx => hv x (List.mem_cons_of_mem _ hx)
    have hs := hv s (List.mem_cons_self _ _)
    have htail := ih hv'
    have key : ∀ (n i0 : Nat), s.stop - i0 ≤ n →
        TrajTo (advanceTail (s :: ss))
          ((rangeSeq i0 s.stop s.step).flatMap
            (fun i => (sliceCoords ss).map (fun c => i :: c)))
          (s.start :: initCursor ss, true) := by
      intro n
      induction n with
      | zero =>
        intro i0 h0
        rw [rangeSeq_nil _ _ _ (by omega), List.flatMap_nil]
        trivial
      | succ n ih2 =>
        intro i0 h0
        by_cases hlt : i0 < s.stop
        · rw [rangeSeq_cons _ _ _ hs.2 hlt, List.flatMap_cons]
          have hlift := TrajTo_lift s ss i0 (initCursor ss) (sliceCoords ss) htail
          by_cases hnext : i0 + s.step < s.stop
          · rw [if_pos hnext] at hlift
            obtain ⟨t0, ht0⟩ := sliceCoords_head ss hv'
            have hdec : (rangeSeq (i0 + s.step) s.stop s.step).flatMap
                (fun i => (sliceCoords ss).map (fun c => i :: c)) =
                ((i0 + s.step) :: initCursor ss) ::
                  (t0.map (fun c => (i0 + s.step) :: c) ++
                    (rangeSeq (i0 + s.step + s.step) s.stop s.step).flatMap
                      (fun i => (sliceCoords ss).map (fun c => i :: c))) := by
              rw [rangeSeq_cons _ _ _ hs.2 hnext, List.flatMap_cons, ht0, List.map_cons]
              rfl
            have hrest := ih2 (i0 + s.step) (by omega)
            rw [hdec] at hrest
            rw [hdec]
            exact TrajTo_append _ _ _ _ _ hlift hrest
          · rw [if_neg hnext] at hlift
            rw [rangeSeq_nil _ _ _ (by omega), List.flatMap_nil, List.append_nil]
            exact hlift
        · rw [rangeSeq_nil _ _ _ (by omega), List.flatMap_nil]
          trivial
    show TrajTo _ ((rangeSeq s.start s.stop s.step).flatMap _) _
    exact key s.stop s.start (by omega)

/-- One step of the state-level iterator run. -/
theorem iterRunIdx_succ (fuel : Nat) (s : Slice) (ss : List Slice) (i : Nat)
    (c : List Nat) :
    iterRunIdx (fuel + 1) (s :: ss) (i :: c) =
      if s.stop ≤ i then []
      else (i :: c) :: iterRunIdx fuel (s :: ss) (advanceCursor (s :: ss) (i :: c)) :=
  rfl

/-- The iterator stops as soon as the first dimension's cursor reaches or
exceeds its stop, whatever fuel remains. -/
theorem iterRunIdx_stop (fuel : Nat) (s : Slice) (ss : List Slice) (i : Nat)
    (c : List Nat) (h : s.stop ≤ i) :
    iterRunIdx fuel (s :: ss) (i :: c) = [] := by
  rcases fuel with _ | f
  · rfl
  · rw [iterRunIdx_succ, if_pos h]

/-- Running the iterator across one block with fixed head value `i`: it
emits `i` prefixed to every tail state of the block and continues at the
advanced head over the reset tail. -/
theorem iterRunIdx_seg (s : Slice) (ss : List Slice) (i : Nat) (hi : i < s.stop) :
    ∀ (rest : List (List Nat)) (c tfin : List Nat) (f : Nat),
    TrajTo (advanceTail ss) (c :: rest) (tfin, true) →
    iterRunIdx (f + (rest.length + 1)) (s :: ss) (i :: c) =
      (c :: rest).map (fun c' => i :: c') ++
        iterRunIdx f (s :: ss) ((i + s.step) :: tfin) := by
  intro rest
  induction rest with
  | nil =>
    intro c tfin f h
    have h' : advanceTail ss c = (tfin, true) := h
    rw [show f + (([] : List (List Nat)).length + 1) = f + 1 by simp]
    rw [iterRunIdx_succ, if_neg (by omega)]
    have hadv : advanceCursor (s :: ss) (i :: c) = (i + s.step) :: tfin := by
      simp only [advanceCursor, h']
    rw [hadv]
    rfl
  | cons c2 rest' ih =>
    intro c tfin f h
    have h1 : advanceTail ss c = (c2, false) := h.1
    have hfe : f + ((c2 :: rest').length + 1) = (f + (rest'.length + 1)) + 1 := by
      simp [List.length_cons]
      omega
    rw [hfe, iterRunIdx_succ, if_neg (by omega)]
    have hadv : advanceCursor (s :: ss) (i :: c) = i :: c2 := by
      simp only [advanceCursor, h1]
    rw [hadv, ih c2 tfin f h.2]
    rfl

/-- Full run of the state-level iterator from an arbitrary head value over
the reset tail: it emits exactly the remaining row-major coordinates and
then stops on its own (any extra fuel is unused). -/
theorem iterRunIdx_all (s : Slice) (ss : List Slice)
    (hv : ∀ x ∈ s :: ss, x.start < x.stop ∧ 1 ≤ x.step) :
    ∀ (n i0 : Nat), s.stop - i0 ≤ n → ∀ (f : Nat),
    iterRunIdx (f + ((rangeSeq i0 s.stop s.step).flatMap
        (fun i => (sliceCoords ss).map (fun c => i :: c))).length)
      (s :: ss) (i0 :: initCursor ss) =
      (rangeSeq i0 s.stop s.step).flatMap
        (fun i => (sliceCoords ss).map (fun c => i :: c)) := by
  have hv' : ∀ x ∈ ss, x.start < x.stop ∧ 1 ≤ x.step :=
    fun x hx => hv x (List.mem_cons_of_mem _ hx)
  have hs := hv s (List.mem_cons_self _ _)
  have htail := sliceCoords_traj ss hv'
  intro n
  induction n with
  | zero =>
    intro i0 h0 f
    rw [rangeSeq_nil _ _ _ (by omega), List.flatMap_nil]
    exact iterRunIdx_stop _ _ _ _ _ (by omega)
  | succ n ih =>
    intro i0 h0 f
    by_cases hlt : i0 < s.stop
    · rw [rangeSeq_cons _ _ _ hs.2 hlt, List.flatMap_cons]
      obtain ⟨t0, ht0⟩ := sliceCoords_head ss hv'
      have htraj : TrajTo (advanceTail ss) (initCursor ss :: t0)
          (initCursor ss, true) := by
        rw [← ht0]; exact htail
      have hlen : (((sliceCoords ss).map (fun c => i0 :: c)) ++
          (rangeSeq (i0 + s.step) s.stop s.step).flatMap
            (fun i => (sliceCoords ss).map (fun c => i :: c))).length =
          ((rangeSeq (i0 + s.step) s.stop s.step).flatMap
            (fun i => (sliceCoords ss).map (fun c => i :: c))).length +
          (t0.length + 1) := by
        rw [List.length_append, List.length_map, ht0]
        simp [List.length_cons]
        omega
      rw [hlen, ← Nat.add_assoc]
      have hseg := iterRunIdx_seg s ss i0 hlt t0 (initCursor ss) (initCursor ss)
        (f + ((rangeSeq (i0 + s.step) s.stop s.step).flatMap
          (fun i => (sliceCoords ss).map (fun c => i :: c))).length) htraj
      rw [← ht0] at hseg
      rw [hseg, ih (i0 + s.step) (by omega) f]
    · rw [rangeSeq_nil _ _ _ (by omega), List.flatMap_nil]
      exact iterRunIdx_stop _ _ _ _ _ (by omega)

/-- The item-level run is the state-level run with the end-of-`next`
scalar/tuple conversion applied to every emitted cursor copy. -/
theorem iterRun_eq_map :
    ∀ (fuel : Nat) (sel : List Slice) (idx : List Nat),
    iterRun fuel sel idx = (iterRunIdx fuel sel idx).map (emitItem sel.length) := by
  intro fuel
  induction fuel with
  | zero => intro sel idx; rfl
  | succ f ih =>
    intro sel idx
    rcases sel with _ | ⟨s, ss⟩
    · rfl
    · rcases idx with _ | ⟨i, c⟩
      · rfl
      · by_cases h : s.stop ≤ i
        · simp only [iterRun, iterNext, if_pos h, iterRunIdx_succ, List.map_nil]
        · simp only [iterRun, iterNext, if_neg h, iterRunIdx_succ, List.map_cons,
            ih ((s :: ss)) (advanceCursor (s :: ss) (i :: c))]

/-- C10: over any non-empty, all-range selection whose dimensions are
non-empty ranges with positive stride, `ItemIterator` produces exactly
the row-major coordinate list of the selection (last dimension fastest,
advancing by the stride with carry to the left), converted by
`emitItem` — a scalar per item when the rank is 1, a coordinate tuple
otherwise — and iteration ends by itself once the first dimension's
cursor reaches or exceeds its stop: any fuel beyond the coordinate count
is unused. -/
theorem itemIterator_rowmajor (sel : List Slice)
    (hne : sel ≠ [])
    (hv : ∀ s ∈ sel, s.start < s.stop ∧ 1 ≤ s.step)
    (extraFuel : Nat) :
    iterRun ((sliceCoords sel).length + extraFuel) sel (initCursor sel) =
      (sliceCoords sel).map (emitItem sel.length) := by
  rcases sel with _ | ⟨s, ss⟩
  · exact absurd rfl hne
  · rw [iterRun_eq_map]
    refine congrArg (List.map (emitItem (s :: ss).length)) ?_
    show iterRunIdx _ (s :: ss) (s.start :: initCursor ss) = _
    rw [Nat.add_comm]
    exact iterRunIdx_all s ss hv s.stop s.start (by omega) extraFuel

/-- Witness for `itemIterator_rowmajor`: the claim's example — the
iterator over `[0:3, 0:2]` produces `(0,0),(0,1),(1,0),(1,1),(2,0),(2,1)`
in that order — and a rank-1 strided selection `[1:6:2]`, whose items are
the scalars `1, 3, 5`. -/
theorem itemIterator_rowmajor_witness :
    iterRun 6 [Slice.mk 0 3 1, Slice.mk 0 2 1]
        (initCursor [Slice.mk 0 3 1, Slice.mk 0 2 1]) =
      [IterItem.tuple [0, 0], IterItem.tuple [0, 1], IterItem.tuple [1, 0],
       IterItem.tuple [1, 1], IterItem.tuple [2, 0], IterItem.tuple [2, 1]] ∧
    iterRun 3 [Slice.mk 1 6 2] (initCursor [Slice.mk 1 6 2]) =
      [IterItem.scalar 1, IterItem.scalar 3, IterItem.scalar 5] := by
  constructor
  · have h := itemIterator_rowmajor [Slice.mk 0 3 1, Slice.mk 0 2 1]
      (by decide)
      (by
        intro s hs
        simp only [List.mem_cons, List.mem_singleton] at hs
        rcases hs with rfl | hs
        · exact ⟨by decide, by decide⟩
        · rcases hs with rfl | hs
          · exact ⟨by decide, by decide⟩
          · exact absurd hs (by simp)) 0
    rw [show (sliceCoords [Slice.mk 0 3 1, Slice.mk 0 2 1]).length + 0 = 6
      from by decide] at h
    rw [h]
    decide
  · have h := itemIterator_rowmajor [Slice.mk 1 6 2]
      (by decide)
      (by
        intro s hs
        simp only [List.mem_singleton] at hs
        rcases hs with rfl
        exact ⟨by decide, by decide⟩) 0
    rw [show (sliceCoords [Slice.mk 1 6 2]).length + 0 = 3 from by decide] at h
    rw [h]
    decide
